import Mathlib

/-!
Verification of the gtnh-flow overclocking core (`src/gtnh/values.py`,
`src/gtnh/overclock_calculator.py`, `src/gtnh/parallel_helper.py`).

The Python code works on machine ints and IEEE doubles.  We embed the
numerics exactly: ints become `ℤ`, float quantities become `ℚ`, and the
few places where `math.log` feeds an `int()`/`math.ceil()` truncation are
rewritten as exact integer log computations (`Nat.log` / `Nat.clog`),
which agree with the real-valued formulas the floats approximate.
Operations that raise a Python exception (`math domain error`,
`ZeroDivisionError`, a failing `validate()`) are modelled by `Option`:
`none` means the call raises instead of returning.
-/

namespace GTNH

/-- Python `int(x)` applied to a float/rational: truncation toward zero. -/
def intTrunc (q : ℚ) : ℤ := if q < 0 then ⌈q⌉ else ⌊q⌋

/-- Fuel-indexed integer logarithm, a structurally recursive version of
`Nat.log` (whose well-founded recursion does not reduce); see
`natLog_eq`. -/
def natLogGo (b : ℕ) : ℕ → ℕ → ℕ
  | 0, _ => 0
  | fuel + 1, n => if 1 < b ∧ b ≤ n then natLogGo b fuel (n / b) + 1 else 0

/-- `⌊log_b n⌋` (equal to `Nat.log b n`, see `natLog_eq`). -/
def natLog (b n : ℕ) : ℕ := natLogGo b n n

/-- Fuel-indexed ceiling logarithm, a structurally recursive version of
`Nat.clog`; see `natClog_eq`. -/
def natClogGo (b : ℕ) : ℕ → ℕ → ℕ
  | 0, _ => 0
  | fuel + 1, n => if 1 < b ∧ 1 < n then natClogGo b fuel ((n + b - 1) / b) + 1 else 0

/-- `⌈log_b n⌉` (equal to `Nat.clog b n`, see `natClog_eq`). -/
def natClog (b n : ℕ) : ℕ := natClogGo b n n

/-- `⌊log_b q⌋` for a rational `q > 0` and base `b ≥ 2`.
For `q ≥ 1` this is `Nat.log b ⌊q⌋` (since `b^k ≤ q ↔ b^k ≤ ⌊q⌋`);
for `0 < q < 1` it is `-⌈log_b q⁻¹⌉ = -(Nat.clog b ⌈q⁻¹⌉)`
(since `b^k ≥ r ↔ b^k ≥ ⌈r⌉`).  Junk for `q ≤ 0` (callers guard). -/
def qLogFloor (b : ℕ) (q : ℚ) : ℤ :=
  if 1 ≤ q then (natLog b ⌊q⌋.toNat : ℤ) else -(natClog b ⌈q⁻¹⌉.toNat : ℤ)

/-- Argument normalisation for the continuous power scale:
`1 + max(0, log2 v - 5)/2 = 1 + log4 (max 1 (v/32))`. -/
def ptArg (v : ℚ) : ℚ := max 1 (v / 32)

/-- `int(log4 (A/B) - oc)` (Python `int()`: truncation toward zero) for
rationals `A, B > 0`.  `log4 (A/B) - oc ≥ 0` iff `B * 4^oc ≤ A`; in that
case truncation is `⌊log4 (A/B)⌋ - oc`, otherwise it is
`⌈log4 (A/B)⌉ - oc = -⌊log4 (B/A)⌋ - oc`. -/
def log4Trunc (A B : ℚ) (oc : ℤ) : ℤ :=
  if B * (4 : ℚ) ^ oc ≤ A then qLogFloor 4 (A / B) - oc
  else -(qLogFloor 4 (B / A)) - oc

/-- `int(power_tier M - power_tier R)`, the float expression
`OverclockCalculator._amount_of_overclocks` computes, in exact form:
`power_tier M - power_tier R = log4 (ptArg M / ptArg R)`. -/
def tierDiffTrunc (M R : ℚ) : ℤ := log4Trunc (ptArg M) (ptArg R) 0

/-- `int(power_tier M - power_tier R - oc)`: the exponent used by the
`has_one_tick_discount` branch of `calculate()`. -/
def oneTickExp (M R : ℚ) (oc : ℤ) : ℤ := log4Trunc (ptArg M) (ptArg R) oc

/-- `math.ceil(OverclockCalculator._power_tier v)`
`= 1 + ⌈log4 (ptArg v)⌉ = 1 + Nat.clog 4 ⌈ptArg v⌉` (for `v > 0`). -/
def ptCeil (v : ℚ) : ℤ := 1 + (natClog 4 ⌈ptArg v⌉.toNat : ℤ)

/-- `math.ceil(math.log d b)` for integers `d ≥ 1`, `b ≥ 2`.
Junk otherwise (callers guard: `d ≤ 0` is a math domain error and
`b = 1` a `ZeroDivisionError` in Python). -/
def clogZ (b d : ℤ) : ℤ := (natClog b.toNat d.toNat : ℤ)

/-- Result record of `OverclockCalculator.calculate()`
(`OverclockCalculatorResult` in the source). -/
structure OverclockCalculatorResult where
  duration : ℤ
  recipe_voltage : ℤ
  overclock_count : ℤ
deriving DecidableEq, Repr

/-- The configuration fields of `OverclockCalculator` (the dataclass
members, with the two private members spelled without the leading
underscore).  Defaults are the dataclass defaults; `0.3 = 3/10`,
`0.95 = 19/20`. -/
structure OverclockCalculator where
  recipe_voltage : ℤ
  duration : ℤ
  machine_voltage : ℤ
  recipe_amperage : ℤ := 1
  machine_amperage : ℤ := 1
  parallel : ℤ := 1
  speed_boost : ℚ := 1
  does_not_overclock : Bool := false
  eut_discount : ℚ := 1
  eut_increase_per_oc : ℤ := 4
  duration_decrease_per_oc : ℤ := 2
  has_one_tick_discount : Bool := false
  does_amperage_oc : Bool := false
  does_laser_oc : Bool := false
  laser_oc_penalty : ℚ := 3 / 10
  does_heat_oc : Bool := false
  recipe_heat : ℤ := 0
  machine_heat : ℤ := 0
  duration_decrease_per_heat_oc : ℤ := 4
  has_heat_discount : Bool := false
  heat_discount_multi : ℚ := 19 / 20
  limits_overclocks : Bool := false
  max_overclocks : ℤ := 0
deriving DecidableEq, Repr

namespace OverclockCalculator

/-- `OverclockCalculator.validate()`: `true` iff it returns normally,
`false` iff it raises `ValueError`. -/
def validate (c : OverclockCalculator) : Bool :=
  !(c.does_laser_oc && c.does_amperage_oc)
    && decide (0 < c.duration_decrease_per_oc)
    && decide (0 < c.duration_decrease_per_heat_oc)
    && decide (0 < c.eut_increase_per_oc)

/-- The exponent `heat_discounts` of `_heat_discount_multiplier`
(Python `//` is `Int.fdiv`). -/
def heatDiscounts (c : OverclockCalculator) : ℤ :=
  if c.has_heat_discount then Int.fdiv (c.machine_heat - c.recipe_heat) 900 else 0

/-- `OverclockCalculator._heat_discount_multiplier()`. -/
def heatDiscountMultiplier (c : OverclockCalculator) : ℚ :=
  c.heat_discount_multi ^ heatDiscounts c

/-- `true` iff `math.pow(heat_discount_multi, heat_discounts)` is defined:
Python raises only for base `0.0` with a negative exponent. -/
def heatPowGuard (c : OverclockCalculator) : Bool :=
  !(decide (c.heat_discount_multi = 0) && decide (heatDiscounts c < 0))

/-- The amperage used by `_machine_power_tier`. -/
def effectiveAmperage (c : OverclockCalculator) : ℤ :=
  if c.does_amperage_oc then c.machine_amperage
  else min c.machine_amperage c.parallel

/-- The argument `machine_voltage * amp` of `_machine_power_tier`. -/
def machinePower (c : OverclockCalculator) : ℚ :=
  ((c.machine_voltage * effectiveAmperage c : ℤ) : ℚ)

/-- The argument of `_recipe_power_tier` (a float product in Python). -/
def recipePower (c : OverclockCalculator) (h : ℚ) : ℚ :=
  (c.recipe_voltage : ℚ) * (c.parallel : ℚ) * c.eut_discount * h * (c.recipe_amperage : ℚ)

/-- `OverclockCalculator._amount_of_heat_overclocks()`. -/
def amountOfHeatOverclocks (c : OverclockCalculator) : ℤ :=
  min (Int.fdiv (c.machine_heat - c.recipe_heat) 1800)
    (tierDiffTrunc (machinePower c) (recipePower c (heatDiscountMultiplier c)))

/-- `OverclockCalculator._recipe_to_machine_voltage_diff()`. -/
def recipeToMachineVoltageDiff (c : OverclockCalculator) : ℤ :=
  ptCeil (c.machine_voltage : ℚ) - ptCeil (c.recipe_voltage : ℚ)

/-- The value of the local `overclock_count` in `calculate()` after the
needed-overclock computation and all clamps (lines 175-184). -/
def overclockCount (c : OverclockCalculator) : ℤ :=
  let oc1 := min (tierDiffTrunc (machinePower c) (recipePower c (heatDiscountMultiplier c)))
    (clogZ c.duration_decrease_per_oc c.duration)
  let oc2 := if c.does_amperage_oc then oc1 else min oc1 (recipeToMachineVoltageDiff c)
  let oc3 := max oc2 0
  if c.limits_overclocks then min c.max_overclocks oc3 else oc3

/-- The value of the local `heat_overclock_count` after line 186 of
`calculate()` (it is `0` unless `does_heat_oc`). -/
def heatOverclockCount (c : OverclockCalculator) : ℤ :=
  min (if c.does_heat_oc then amountOfHeatOverclocks c else 0) (overclockCount c)

/-- `OverclockCalculator._final_recipe_eut(rv, h)`. -/
def finalRecipeEut (c : OverclockCalculator) (rv : ℤ) (h : ℚ) : ℤ :=
  ⌈(rv : ℚ) * c.eut_discount * h * (c.parallel : ℚ) * (c.recipe_amperage : ℚ)⌉

/-- All error points of the non-skip path of `calculate()` before the
laser loop, in evaluation order: the heat-discount `pow`, the two
`_power_tier` logarithms (domain error on a non-positive argument),
`math.log(self.duration, duration_decrease_per_oc)` (domain error for
`duration ≤ 0`, `ZeroDivisionError` for base `1`), and, when not
amperage-overclocking, `_recipe_to_machine_voltage_diff`'s logarithms. -/
def mainGuards (c : OverclockCalculator) : Bool :=
  heatPowGuard c
    && decide (0 < machinePower c)
    && decide (0 < recipePower c (heatDiscountMultiplier c))
    && decide (0 < c.duration)
    && !(decide (c.duration_decrease_per_oc = 1))
    && (c.does_amperage_oc
        || (decide (0 < c.machine_voltage) && decide (0 < c.recipe_voltage)))

/-- The `while` condition of `_do_laser_oc`. -/
def laserCond (c : OverclockCalculator) (dur rv : ℤ) (pen : ℚ) : Bool :=
  decide ((rv : ℚ) * pen < ((c.machine_voltage * c.machine_amperage : ℤ) : ℚ))
    && decide (0 < (rv : ℚ) * pen)
    && decide (1 < dur)

/-- The loop of `_do_laser_oc`, indexed by fuel; `none` models a run that
does not finish within `fuel` iterations.  (`calculate` supplies fuel
`dur.toNat`, which theorem `laserGo_isSome_of_two_le` shows is enough
whenever the loop is reachable, i.e. `duration_decrease_per_oc ≥ 2`.) -/
def laserGo (c : OverclockCalculator) : ℕ → ℤ → ℤ → ℚ → Option (ℤ × ℤ)
  | 0, dur, rv, pen =>
    if laserCond c dur rv pen then none else some (dur, rv)
  | fuel + 1, dur, rv, pen =>
    if laserCond c dur rv pen then
      laserGo c fuel (Int.fdiv dur c.duration_decrease_per_oc)
        (intTrunc ((rv : ℚ) * pen)) (pen + c.laser_oc_penalty)
    else some (dur, rv)

/-- `OverclockCalculator._do_laser_oc(duration, recipe_voltage)`:
starting penalty is `eut_increase_per_oc + laser_oc_penalty`. -/
def laserLoop (c : OverclockCalculator) (dur rv : ℤ) : Option (ℤ × ℤ) :=
  laserGo c dur.toNat dur rv ((c.eut_increase_per_oc : ℚ) + c.laser_oc_penalty)

/-- Line 154: `duration = math.ceil(self.duration * self.speed_boost)`. -/
def calcDur0 (c : OverclockCalculator) : ℤ := ⌈(c.duration : ℚ) * c.speed_boost⌉

/-- Line 187: `recipe_voltage = floor(recipe_voltage * pow(eut_increase_per_oc, overclock_count))`. -/
def calcRv1 (c : OverclockCalculator) : ℤ :=
  ⌊(c.recipe_voltage : ℚ) * (c.eut_increase_per_oc : ℚ) ^ overclockCount c⌋

/-- Line 190: `duration = floor(duration / pow(duration_decrease_per_oc, overclock_count - heat_overclock_count))`. -/
def calcDur1 (c : OverclockCalculator) : ℤ :=
  ⌊(calcDur0 c : ℚ) / (c.duration_decrease_per_oc : ℚ) ^ (overclockCount c - heatOverclockCount c)⌋

/-- Line 197: `duration = floor(duration / pow(duration_decrease_per_heat_oc, heat_overclock_count))`. -/
def calcDur2 (c : OverclockCalculator) : ℤ :=
  ⌊(calcDur1 c : ℚ) / (c.duration_decrease_per_heat_oc : ℚ) ^ heatOverclockCount c⌋

/-- The new value of the field `self.recipe_voltage` written by the
`has_one_tick_discount` branch (lines 201-210). -/
def oneTickVoltage (c : OverclockCalculator) : ℤ :=
  let rv : ℤ := ⌊(c.recipe_voltage : ℚ) /
    (c.duration_decrease_per_oc : ℚ) ^
      oneTickExp (machinePower c) (recipePower c (heatDiscountMultiplier c)) (overclockCount c)⌋
  if rv < 1 then 1 else rv

/-- The calculator state after `calculate()` returns: the
`has_one_tick_discount` branch mutates `self.recipe_voltage`; nothing
else is written. -/
def calcState (c : OverclockCalculator) : OverclockCalculator :=
  if c.has_one_tick_discount then { c with recipe_voltage := oneTickVoltage c } else c

/-- The laser step of `calculate()` (line 212): the loop runs on the
already-stepped local `duration` and `recipe_voltage`. -/
def calcLaser (c : OverclockCalculator) : Option (ℤ × ℤ) :=
  if c.does_laser_oc then laserLoop c (calcDur2 c) (calcRv1 c)
  else some (calcDur2 c, calcRv1 c)

/-- `OverclockCalculator.calculate()`.  Returns the calculator state
after the call together with the result; `none` models an escaping
exception (log domain error / `ZeroDivisionError` / pow error). -/
def calculate (c : OverclockCalculator) :
    Option (OverclockCalculator × OverclockCalculatorResult) :=
  if c.does_not_overclock then
    if heatPowGuard c then
      some (c, ⟨calcDur0 c, finalRecipeEut c c.recipe_voltage (heatDiscountMultiplier c), 0⟩)
    else none
  else if mainGuards c then
    match calcLaser c with
    | none => none
    | some (durL, rvL) =>
      some (calcState c,
        ⟨if durL < 1 then 1 else durL,
         finalRecipeEut c rvL (heatDiscountMultiplier c),
         overclockCount c⟩)
  else none

/-- `OverclockCalculator.calculate_duration_under_one_tick()`.
Note line 238 of the source evaluates `_amount_of_heat_overclocks()`
unconditionally (not only under `does_heat_oc`). -/
def durationUnderOneTick (c : OverclockCalculator) : Option ℚ :=
  if c.does_not_overclock then some (c.duration : ℚ)
  else if heatPowGuard c && decide (0 < machinePower c)
      && decide (0 < recipePower c (heatDiscountMultiplier c)) then
    let n0 := tierDiffTrunc (machinePower c) (recipePower c (heatDiscountMultiplier c))
    let n := if c.limits_overclocks then min n0 c.max_overclocks else n0
    let h2 := min (amountOfHeatOverclocks c) n
    some ((c.duration : ℚ) * c.speed_boost /
      ((c.duration_decrease_per_oc : ℚ) ^ (n - h2)
        * (c.duration_decrease_per_heat_oc : ℚ) ^ h2))
  else none

/-- `OverclockCalculator.calculate_eut_consumption_under_one_tick(origMax, currentPar)`.
The two fractional-exponent `math.pow` factors of the source multiply to
exactly `eut_increase_per_oc ^ amount_total_oc` in real arithmetic (the
fractional parallel-overclock exponents cancel), so the value reduces to
the closed rational form below.  The guards collect the source's error
points: the heat pow, the division `current/origMax`, the two
`math.log` bases (`ZeroDivisionError` at base 1), the log argument
`parallel_multiplier ≤ 0`, the two power tiers, and — when
`recipe_voltage ≤ VoltageTier[0] = 8` — the logs inside
`_recipe_to_machine_voltage_diff`. -/
def eutConsumptionUnderOneTick (c : OverclockCalculator) (origMax currentPar : ℤ) : Option ℤ :=
  if c.does_not_overclock then some c.recipe_voltage
  else if heatPowGuard c
      && !(decide (origMax = 0))
      && decide (0 < (currentPar : ℚ) / (origMax : ℚ))
      && !(decide (c.duration_decrease_per_heat_oc = 1))
      && !(decide (c.duration_decrease_per_oc = 1))
      && decide (0 < machinePower c)
      && decide (0 < recipePower c (heatDiscountMultiplier c))
      && (decide (8 < c.recipe_voltage)
          || (decide (0 < c.machine_voltage) && decide (0 < c.recipe_voltage))) then
    let T0 := tierDiffTrunc (machinePower c) (recipePower c (heatDiscountMultiplier c))
    let T1 := if c.recipe_voltage ≤ 8 then min T0 (recipeToMachineVoltageDiff c) else T0
    let T := if c.limits_overclocks then min T1 c.max_overclocks else T1
    some ⌈(c.recipe_voltage : ℚ) * (c.eut_increase_per_oc : ℚ) ^ T
      * (origMax : ℚ) * c.eut_discount * (c.recipe_amperage : ℚ)
      * heatDiscountMultiplier c⌉
  else none

end OverclockCalculator

/-- Modelled from the spec: the ingredient-availability collaborator
(`src.data.basicTypes.Ingredient`, whose source file is not part of the
repository snapshot) is "a mapping-like
collaborator answering 'total available quantity of ingredient X' and
'required quantity of ingredient X per recipe instance', keyed by an
ingredient identifier (name)"; "absence of a key must be distinguishable
from a zero quantity".  One named quantity entry. -/
structure Ingredient where
  name : String
  quantity : ℚ
deriving DecidableEq, Repr

/-- Modelled from the spec: an `IngredientCollection` is a multiset of
named quantity entries; lookup by name aggregates every entry of that
name (`sum(ing_input)` in `max_parallel_calculated_by_inputs`). -/
abbrev IngredientCollection := List Ingredient

/-- Modelled from the spec: total quantity stored under a name
(`sum(collection[name])`). -/
def totalOf (coll : IngredientCollection) (n : String) : ℚ :=
  ((coll.filter (fun i => i.name = n)).map Ingredient.quantity).sum

/-- Modelled from the spec: key membership (`name in collection`),
distinguishable from a zero total. -/
def containsName (coll : IngredientCollection) (n : String) : Bool :=
  coll.any (fun i => i.name = n)

/-- The assignment `self.calculator.parallel = p` performed by
`ParallelHelper.build()`. -/
def OverclockCalculator.withParallel (c : OverclockCalculator) (p : ℤ) :
    OverclockCalculator := { c with parallel := p }

/-- Result record of `ParallelHelper.build()` (`ParallelHelperResult`). -/
structure ParallelHelperResult where
  parallel : ℤ
  recipe_voltage : ℤ
  duration_multiplier : ℚ
  calculator_result : OverclockCalculatorResult
deriving DecidableEq, Repr

/-- The configuration fields of `ParallelHelper`. -/
structure ParallelHelper where
  calculator : OverclockCalculator
  ingredient_inputs : IngredientCollection
  recipe_inputs : IngredientCollection
  eut_modifier : ℚ := 1
  max_parallel : ℤ := 1
deriving DecidableEq, Repr

namespace ParallelHelper

/-- `self._actual_recipe_eut` as computed by `ParallelHelper.validate()`. -/
def actualRecipeEut (hp : ParallelHelper) : ℤ :=
  ⌈(hp.calculator.recipe_voltage : ℚ) * hp.eut_modifier⌉

/-- `self._available_eut` as computed by `ParallelHelper.validate()`. -/
def availableEut (hp : ParallelHelper) : ℤ :=
  hp.calculator.machine_voltage * hp.calculator.machine_amperage

/-- `ParallelHelper.validate()`: `true` iff it returns normally. -/
def helperValidate (hp : ParallelHelper) : Bool :=
  decide (actualRecipeEut hp ≤ availableEut hp)

/-- The loop of `max_parallel_calculated_by_inputs`: walk the recipe
ingredients keeping the smallest availability ratio seen so far
(`none` as accumulator = Python's initial `math.inf`).  Return `0` at
the first required name absent from the inputs; `none` models the
unguarded `ZeroDivisionError` when a required total is zero. -/
def maxParallelGo (inputs recipeAll : IngredientCollection) (mp : ℤ) :
    List Ingredient → Option ℚ → Option ℤ
  | [], none => some mp
  | [], some r => some (min mp ⌊r⌋)
  | ing :: rest, acc =>
    if containsName inputs ing.name then
      if totalOf recipeAll ing.name = 0 then none
      else
        let rq := totalOf inputs ing.name / totalOf recipeAll ing.name
        maxParallelGo inputs recipeAll mp rest
          (some (match acc with | none => rq | some r => min rq r))
    else some 0

/-- `ParallelHelper.max_parallel_calculated_by_inputs(max_parallel)`. -/
def maxParallelCalculatedByInputs (hp : ParallelHelper) (mp : ℤ) : Option ℤ :=
  maxParallelGo hp.ingredient_inputs hp.recipe_inputs mp hp.recipe_inputs none

/-- The list of availability ratios of the required ingredients, in
recipe order (for stating the specification of input-limited sizing). -/
def ratioList (hp : ParallelHelper) : List ℚ :=
  hp.recipe_inputs.map (fun ing =>
    totalOf hp.ingredient_inputs ing.name / totalOf hp.recipe_inputs ing.name)

/-- Running minimum used to state the specification of
`max_parallel_calculated_by_inputs`: `none` plays the role of the
initial `math.inf`. -/
def listMinAux : Option ℚ → List ℚ → Option ℚ
  | acc, [] => acc
  | acc, x :: xs =>
    listMinAux (some (match acc with | none => x | some r => min x r)) xs

open OverclockCalculator in
/-- The tail of `ParallelHelper.build()` / `determineParallel()` after
the sub-tick ceiling inflation: `mp1` is the (possibly inflated)
parallel ceiling.  Covers lines 126-161 of the source. -/
def buildTail (hp : ParallelHelper) (mp1 : ℤ) :
    Option (OverclockCalculator × ParallelHelperResult) :=
  let ORIG := hp.max_parallel
  let c1 := hp.calculator.withParallel ORIG
  let actualMp :=
    if 0 < actualRecipeEut hp then
      min mp1 (intTrunc ((availableEut hp : ℚ) / (actualRecipeEut hp : ℚ)))
    else mp1
  match maxParallelCalculatedByInputs hp actualMp with
  | none => none
  | some current =>
    match eutConsumptionUnderOneTick c1 ORIG current with
    | none => none
    | some eutUse =>
      let c2 := c1.withParallel (min current ORIG)
      if OverclockCalculator.validate c2 then
        match OverclockCalculator.calculate c2 with
        | none => none
        | some (c3, res) =>
          some (c3,
            ⟨current,
             if ORIG < current then eutUse else res.recipe_voltage,
             1, res⟩)
      else none

open OverclockCalculator in
/-- `ParallelHelper.build()`.  Returns the final state of the wrapped
calculator (which `build` mutates through `self.calculator.parallel`)
together with the result; `none` models an escaping exception. -/
def build (hp : ParallelHelper) :
    Option (OverclockCalculator × ParallelHelperResult) :=
  if hp.max_parallel ≤ 0 then some (hp.calculator, ⟨0, 0, 0, ⟨0, 0, 0⟩⟩)
  else
    match durationUnderOneTick (hp.calculator.withParallel hp.max_parallel) with
    | none => none
    | some tickTime =>
      if tickTime < 1 then
        if tickTime = 0 then none
        else buildTail hp (intTrunc ((hp.max_parallel : ℚ) / tickTime))
      else buildTail hp hp.max_parallel

end ParallelHelper

/-! ## VoltageTier (`src/gtnh/values.py`) -/

/-- `VoltageTier` tier `n` has nominal voltage `2^(3+2n)` (the table
`ULV = 8` .. `MAX_PLUS = 8589934592`; `_from_number`). -/
def voltageOfTier (n : ℕ) : ℤ := 2 ^ (3 + 2 * n)

/-- `max(0, math.ceil((math.log(v, 2) - 3) / 2))` in exact form: the
least `n` with `v ≤ 2^(2n+3)`, i.e. `(Nat.clog 2 v - 2) / 2` (see
`tierCeilNum_le_iff`). -/
def tierCeilNum (v : ℕ) : ℕ := (natClog 2 v - 2) / 2

/-- `VoltageTier(v)` for an integer argument: `some tier-number` on
success, `none` when Python raises `ValueError`.  `_missing_` accepts
`1 ≤ v < MAX_PLUS * 4` and computes the tier number; `_from_number`
then rebuilds `VoltageTier(2^(3+2t))`, which for `t = 16` (that is,
`v > 2^33`) falls outside the table and fails. -/
def voltageTierOfValue (v : ℤ) : Option ℕ :=
  if 1 ≤ v ∧ v < 4 * voltageOfTier 15 then
    if tierCeilNum v.toNat ≤ 15 then some (tierCeilNum v.toNat) else none
  else none

/-! ## Concrete fixture configurations used by the claim theorems -/

/-- A configuration `validate()` accepts whose skip-overclock branch
returns duration `ceil(0 * 1.0) = 0`. -/
def c1bad : OverclockCalculator :=
  { recipe_voltage := 30, duration := 0, machine_voltage := 8192, does_not_overclock := true }

/-- A small fully-valid configuration (2 EU/t, 4 ticks, IV machine). -/
def c1w : OverclockCalculator :=
  { recipe_voltage := 2, duration := 4, machine_voltage := 8192 }

/-- A `has_one_tick_discount` configuration: one overclock step with
three tiers of leftover headroom, so `calculate()` rewrites the field
`recipe_voltage` from 2 to `max(1, floor(2 / 2^3)) = 1`. -/
def c4bad : OverclockCalculator :=
  { recipe_voltage := 2, duration := 2, machine_voltage := 8192, has_one_tick_discount := true }

/-- The calculator state `calculate c4bad` leaves behind. -/
def c4bad2 : OverclockCalculator := { c4bad with recipe_voltage := 1 }

/-- A configuration with machine voltage 0: `validate()` accepts it and
`calculate()` reaches `math.log(0, 2)`. -/
def c9bad : OverclockCalculator :=
  { recipe_voltage := 2, duration := 2, machine_voltage := 0 }

/-- The EBF fixture of the repository's own tests with heat surplus
exactly 1800 (`machine_heat = 3600`, `recipe_heat = 1800`):
`k = 1` perfect step, `j = 0`. -/
def c3fix : OverclockCalculator :=
  { recipe_voltage := 30, duration := 1024, machine_voltage := 8192,
    does_heat_oc := true, has_heat_discount := true,
    recipe_heat := 1800, machine_heat := 3600 }

/-- Laser configuration exercising the loop: recipe 8 EU@t for 64 ticks
on an 8192 EU@t machine with overclocking capped to 0 steps, so the
loop runs four iterations (8, 34, 156, 764, 3972 EU@t). -/
def c6w : OverclockCalculator :=
  { recipe_voltage := 8, duration := 64, machine_voltage := 8192,
    does_laser_oc := true, limits_overclocks := true, max_overclocks := 0 }

/-- The calculator of `hpC2` (and its state at parallel 1). -/
def cA : OverclockCalculator := { recipe_voltage := 2, duration := 1, machine_voltage := 8192 }

/-- The calculator state `build hpC5` leaves behind: `parallel` was 1
and has been overwritten with 4. -/
def cB : OverclockCalculator :=
  { recipe_voltage := 2, duration := 1, machine_voltage := 8192, parallel := 4 }

/-- Sub-tick helper configuration: a 1-tick recipe with 4 overclocks of
headroom, so `durationUnderOneTick = 1/16 < 1` inflates the parallel
ceiling from `max_parallel = 1` to 16. -/
def hpC2 : ParallelHelper :=
  { calculator := { recipe_voltage := 2, duration := 1, machine_voltage := 8192 }
    ingredient_inputs := []
    recipe_inputs := []
    max_parallel := 1 }

/-- Helper configuration whose sub-tick projection is `1024 ≥ 1`: the
input-limited count 3 stays below `max_parallel = 5`. -/
def hpC2w : ParallelHelper :=
  { calculator := { recipe_voltage := 2, duration := 1024, machine_voltage := 32 }
    ingredient_inputs := [⟨"x", 7⟩]
    recipe_inputs := [⟨"x", 2⟩]
    max_parallel := 5 }

/-- Helper configuration whose `build()` sets the wrapped calculator's
`parallel` field from 1 to 4. -/
def hpC5 : ParallelHelper :=
  { calculator := { recipe_voltage := 2, duration := 1, machine_voltage := 8192 }
    ingredient_inputs := []
    recipe_inputs := []
    max_parallel := 4 }

/-- The LCR fixture of the repository's tests with enough input for
exactly two parallels. -/
def hpC7 : ParallelHelper :=
  { calculator := { recipe_voltage := 480, duration := 400, machine_voltage := 512 }
    ingredient_inputs := [⟨"biotite dust", 32⟩, ⟨"sodium hydroxide dust", 32⟩, ⟨"water", 8000⟩]
    recipe_inputs := [⟨"biotite dust", 16⟩, ⟨"sodium hydroxide dust", 16⟩, ⟨"water", 4000⟩] }

/-- Helper configuration whose recipe requires a total of 0 units of an
ingredient that is present among the inputs. -/
def hpC10 : ParallelHelper :=
  { calculator := { recipe_voltage := 2, duration := 1, machine_voltage := 8192 }
    ingredient_inputs := [⟨"a", 5⟩]
    recipe_inputs := [⟨"a", 0⟩]
    max_parallel := 1 }

/-! ## Bridge lemmas for the structural logarithms -/

theorem natLogGo_eq (b : ℕ) :
    ∀ (fuel n : ℕ), n ≤ fuel → natLogGo b fuel n = Nat.log b n := by
  intro fuel
  induction fuel with
  | zero => intro n h; interval_cases n; simp [natLogGo]
  | succ fuel ih =>
    intro n h
    by_cases hc : 1 < b ∧ b ≤ n
    · rw [natLogGo, if_pos hc, ih _ (by
        have := Nat.div_lt_self (by omega : 0 < n) hc.1
        omega), Nat.log_of_one_lt_of_le hc.1 hc.2]
    · rw [natLogGo, if_neg hc]
      rcases not_and_or.mp hc with h1 | h2
      · rw [Nat.log_of_left_le_one (by omega)]
      · rw [Nat.log_of_lt (by omega)]

theorem natClogGo_eq (b : ℕ) :
    ∀ (fuel n : ℕ), n ≤ fuel → natClogGo b fuel n = Nat.clog b n := by
  intro fuel
  induction fuel with
  | zero => intro n h; interval_cases n; simp [natClogGo]
  | succ fuel ih =>
    intro n h
    by_cases hc : 1 < b ∧ 1 < n
    · rw [natClogGo, if_pos hc, ih _ ?_, ← Nat.clog_of_two_le hc.1 hc.2]
      have h2 : (n + b - 1) / b < n := by
        rw [Nat.div_lt_iff_lt_mul (by omega : 0 < b)]
        obtain ⟨bb, rfl⟩ : ∃ bb, b = bb + 2 := ⟨b - 2, by omega⟩
        have h4 : 2 * bb ≤ n * bb := Nat.mul_le_mul_right bb (by omega)
        have h5 : n * (bb + 2) = n * bb + 2 * n := by ring
        omega
      omega
    · rw [natClogGo, if_neg hc]
      rcases not_and_or.mp hc with h1 | h2
      · rw [Nat.clog_of_left_le_one (by omega)]
      · rw [Nat.clog_of_right_le_one (by omega)]

theorem natLog_eq (b n : ℕ) : natLog b n = Nat.log b n := natLogGo_eq b n n le_rfl

theorem natClog_eq (b n : ℕ) : natClog b n = Nat.clog b n := natClogGo_eq b n n le_rfl

/-- Model-validation lemma: `tierCeilNum` is the least `n` with
`v ≤ 2^(2n+3)`, which is exactly `max(0, ⌈(log2 v - 3) / 2⌉)`. -/
theorem tierCeilNum_le_iff (v n : ℕ) : tierCeilNum v ≤ n ↔ v ≤ 2 ^ (2 * n + 3) := by
  unfold tierCeilNum
  rw [natClog_eq, Nat.div_le_iff_le_mul_add_pred (by norm_num : 0 < 2),
    Nat.sub_le_iff_le_add, ← Nat.le_pow_iff_clog_le (by norm_num : 1 < 2)]


/-! ## Laser-loop lemmas -/

namespace OverclockCalculator

theorem laserCond_defs {c : OverclockCalculator} {dur rv : ℤ} {pen : ℚ}
    (h : laserCond c dur rv pen = true) :
    (rv : ℚ) * pen < ((c.machine_voltage * c.machine_amperage : ℤ) : ℚ)
      ∧ 0 < (rv : ℚ) * pen ∧ 1 < dur := by
  simpa [laserCond, and_assoc] using h

/-- When the per-step duration divisor is at least 2, the laser loop
halves the duration each iteration, so `dur.toNat` iterations always
suffice: the fuel `calculate` supplies never runs out. -/
theorem laserGo_isSome_of_two_le {c : OverclockCalculator}
    (hdd : 2 ≤ c.duration_decrease_per_oc) :
    ∀ (fuel : ℕ) (dur rv : ℤ) (pen : ℚ), dur.toNat ≤ fuel →
      (laserGo c fuel dur rv pen).isSome = true := by
  intro fuel
  induction fuel with
  | zero =>
    intro dur rv pen hle
    rcases h : laserCond c dur rv pen with _ | _
    · simp [laserGo, h]
    · rcases laserCond_defs h with ⟨-, -, hdur⟩
      omega
  | succ fuel ih =>
    intro dur rv pen hle
    rcases h : laserCond c dur rv pen with _ | _
    · simp [laserGo, h]
    · rcases laserCond_defs h with ⟨-, -, hdur⟩
      have hdd0 : (0 : ℤ) < c.duration_decrease_per_oc := by omega
      have hfd : Int.fdiv dur c.duration_decrease_per_oc
          = dur / c.duration_decrease_per_oc :=
        Int.fdiv_eq_ediv dur (by omega)
      have hlt : dur / c.duration_decrease_per_oc < dur := by
        rw [Int.ediv_lt_iff_lt_mul hdd0]
        nlinarith
      have hge : 0 ≤ dur / c.duration_decrease_per_oc :=
        Int.ediv_nonneg (by omega) (by omega)
      have hstep : (Int.fdiv dur c.duration_decrease_per_oc).toNat ≤ fuel := by
        rw [hfd]; omega
      simpa [laserGo, h] using
        ih (Int.fdiv dur c.duration_decrease_per_oc)
          (intTrunc ((rv : ℚ) * pen)) (pen + c.laser_oc_penalty) hstep

/-- The laser loop never turns a nonnegative voltage negative: each
iteration replaces it by the truncation of a positive product. -/
theorem laserGo_nonneg {c : OverclockCalculator} :
    ∀ (fuel : ℕ) (dur rv : ℤ) (pen : ℚ) (d v : ℤ), 0 ≤ rv →
      laserGo c fuel dur rv pen = some (d, v) → 0 ≤ v := by
  intro fuel
  induction fuel with
  | zero =>
    intro dur rv pen d v hrv heq
    rcases h : laserCond c dur rv pen with _ | _
    · simp only [laserGo, h, if_neg Bool.false_ne_true, Option.some.injEq] at heq
      cases heq; exact hrv
    · simp [laserGo, h] at heq
  | succ fuel ih =>
    intro dur rv pen d v hrv heq
    rcases h : laserCond c dur rv pen with _ | _
    · simp only [laserGo, h, if_neg Bool.false_ne_true, Option.some.injEq] at heq
      cases heq; exact hrv
    · rcases laserCond_defs h with ⟨-, hpos, -⟩
      simp only [laserGo, h, if_pos rfl] at heq
      refine ih _ _ _ _ _ ?_ heq
      have : (0 : ℚ) ≤ (rv : ℚ) * pen := le_of_lt hpos
      simp only [intTrunc, if_neg (not_lt.mpr this)]
      exact Int.floor_nonneg.mpr this

theorem validate_defs {c : OverclockCalculator} (h : validate c = true) :
    (c.does_laser_oc = false ∨ c.does_amperage_oc = false)
      ∧ 0 < c.duration_decrease_per_oc
      ∧ 0 < c.duration_decrease_per_heat_oc
      ∧ 0 < c.eut_increase_per_oc := by
  simpa [validate, and_assoc, not_and] using h

theorem mainGuards_defs {c : OverclockCalculator} (h : mainGuards c = true) :
    heatPowGuard c = true
      ∧ 0 < machinePower c
      ∧ 0 < recipePower c (heatDiscountMultiplier c)
      ∧ 0 < c.duration
      ∧ c.duration_decrease_per_oc ≠ 1
      ∧ (c.does_amperage_oc = true
          ∨ (0 < c.machine_voltage ∧ 0 < c.recipe_voltage)) := by
  have h' := h
  simp only [mainGuards, Bool.and_eq_true, Bool.or_eq_true, Bool.not_eq_true',
    decide_eq_true_eq, decide_eq_false_iff_not] at h'
  exact ⟨h'.1.1.1.1.1, h'.1.1.1.1.2, h'.1.1.1.2, h'.1.1.2, h'.1.2,
    h'.2.imp id (fun hx => ⟨hx.1, hx.2⟩)⟩

end OverclockCalculator

open OverclockCalculator

/-! ## Claim C6 -/

/-- C6: for every configuration accepted by `validate()` with laser
overclocking enabled, the laser-overclock loop in `calculate()`
terminates.  `mainGuards c = true` states that control actually reaches
the loop (with `duration_decrease_per_oc = 1` or a non-positive log
argument, `calculate()` raises at `_amount_of_needed_overclocks` before
the loop runs); together with `validate()` this forces
`duration_decrease_per_oc ≥ 2`, so the duration strictly shrinks toward
1 each iteration and the loop finishes within its fuel. -/
theorem C6_laser_loop_terminates (c : OverclockCalculator)
    (hv : validate c = true) (_hl : c.does_laser_oc = true)
    (hg : mainGuards c = true) :
    (laserLoop c (calcDur2 c) (calcRv1 c)).isSome = true := by
  have hdd0 := (validate_defs hv).2.1
  have hdd1 := (mainGuards_defs hg).2.2.2.2.1
  exact laserGo_isSome_of_two_le (by omega) _ _ _ _ le_rfl

/-- Witness for C6 at `c6w`: validation, the laser flag and the main
guards hold there, so the loop result is `some`. -/
theorem C6_laser_loop_terminates_witness :
    (laserLoop c6w (calcDur2 c6w) (calcRv1 c6w)).isSome = true := by
  refine C6_laser_loop_terminates c6w (by decide) (by decide) ?_
  simp only [mainGuards, heatPowGuard, heatDiscounts, heatDiscountMultiplier,
    machinePower, recipePower, effectiveAmperage, c6w]
  norm_num

/-! ## Claim C1 -/

/-- C1 (counterexample): the configuration `c1bad` — recipe duration 0
with `does_not_overclock` — passes `validate()`, yet `calculate()`
returns duration `0 < 1`: the skip-overclock branch bypasses the
final `≥ 1` clamp and `validate()` never checks the base duration. -/
theorem C1_skip_duration_counterexample :
    validate c1bad = true
      ∧ calculate c1bad = some (c1bad, ⟨0, 30, 0⟩)
      ∧ ¬(1 ≤ (0 : ℤ)) := by
  refine ⟨by decide, ?_, by decide⟩
  simp only [calculate, c1bad, heatPowGuard, heatDiscounts, heatDiscountMultiplier,
    calcDur0, finalRecipeEut]
  norm_num

/-- C1 (amended): for configurations accepted by `validate()` whose
numeric fields are positive where the recipe model expects them to be
(`duration ≥ 1`, `speed_boost > 0`, voltages/amperages/parallel ≥ 1,
discounts > 0) and whose step divisor is a real division
(`duration_decrease_per_oc ≥ 2`, excluding the base-1 logarithm's
`ZeroDivisionError`), `calculate()` returns a result with duration ≥ 1
and recipe power draw ≥ 0 — in the skip-overclock branch because
`ceil` of a positive product is ≥ 1, elsewhere because of the clamp. -/
theorem C1_result_bounds (c : OverclockCalculator)
    (hv : validate c = true)
    (hdur : 1 ≤ c.duration) (hsb : 0 < c.speed_boost)
    (hrv : 1 ≤ c.recipe_voltage) (hpar : 1 ≤ c.parallel)
    (hmv : 1 ≤ c.machine_voltage) (hma : 1 ≤ c.machine_amperage)
    (hra : 1 ≤ c.recipe_amperage) (hdisc : 0 < c.eut_discount)
    (hmulti : 0 < c.heat_discount_multi)
    (hdd : 2 ≤ c.duration_decrease_per_oc) :
    (calculate c).isSome = true ∧
      ∀ p, calculate c = some p → 1 ≤ p.2.duration ∧ 0 ≤ p.2.recipe_voltage := by
  rcases validate_defs hv with ⟨-, -, -, heut0⟩
  have hh : 0 < heatDiscountMultiplier c := zpow_pos hmulti _
  have hmne : c.heat_discount_multi ≠ 0 := ne_of_gt hmulti
  have hpg : heatPowGuard c = true := by simp [heatPowGuard, hmne]
  have hcast : ∀ n : ℤ, 1 ≤ n → (0 : ℚ) < (n : ℚ) := fun n hn =>
    Int.cast_pos.mpr (by omega)
  have hfe : ∀ rv : ℤ, 0 ≤ rv →
      0 ≤ finalRecipeEut c rv (heatDiscountMultiplier c) := by
    intro rv h0
    refine Int.ceil_nonneg ?_
    have : (0:ℚ) ≤ (rv : ℚ) := Int.cast_nonneg.mpr h0
    refine mul_nonneg (mul_nonneg (mul_nonneg (mul_nonneg this hdisc.le) hh.le) ?_) ?_
    · exact (hcast _ hpar).le
    · exact (hcast _ hra).le
  by_cases hskip : c.does_not_overclock = true
  · have h1 : (0:ℚ) < (c.duration : ℚ) * c.speed_boost :=
      mul_pos (hcast _ hdur) hsb
    have hd : 1 ≤ calcDur0 c := by
      have := Int.ceil_pos.mpr h1
      unfold calcDur0; omega
    simp only [calculate, hskip, if_true, hpg]
    refine ⟨rfl, ?_⟩
    intro p hp
    rw [Option.some.injEq] at hp
    subst hp
    exact ⟨hd, hfe _ (by omega)⟩
  · have hskip' : c.does_not_overclock = false := by
      simpa using hskip
    have hamp : 1 ≤ effectiveAmperage c := by
      unfold effectiveAmperage; split
      · omega
      · omega
    have hM : 0 < machinePower c := by
      unfold machinePower
      exact Int.cast_pos.mpr (mul_pos (by omega) (by omega))
    have hR : 0 < recipePower c (heatDiscountMultiplier c) := by
      unfold recipePower
      exact mul_pos (mul_pos (mul_pos (mul_pos (hcast _ hrv) (hcast _ hpar)) hdisc) hh)
        (hcast _ hra)
    have hg : mainGuards c = true := by
      simp only [mainGuards, Bool.and_eq_true, Bool.or_eq_true, Bool.not_eq_true',
        decide_eq_true_eq, decide_eq_false_iff_not]
      exact ⟨⟨⟨⟨⟨hpg, hM⟩, hR⟩, by omega⟩, by omega⟩, Or.inr ⟨by omega, by omega⟩⟩
    have hrv1 : 0 ≤ calcRv1 c := by
      unfold calcRv1
      refine Int.floor_nonneg.mpr (mul_nonneg ?_ ?_)
      · exact (hcast _ hrv).le
      · exact (zpow_pos (hcast _ (by omega)) _).le
    obtain ⟨durL, rvL, hcl, hrvL⟩ :
        ∃ durL rvL, calcLaser c = some (durL, rvL) ∧ 0 ≤ rvL := by
      cases hlf : c.does_laser_oc with
      | false => exact ⟨calcDur2 c, calcRv1 c, by simp [calcLaser, hlf], hrv1⟩
      | true =>
        have hs := laserGo_isSome_of_two_le (c := c) hdd (calcDur2 c).toNat
          (calcDur2 c) (calcRv1 c)
          ((c.eut_increase_per_oc : ℚ) + c.laser_oc_penalty) le_rfl
        obtain ⟨⟨d, v⟩, hdv⟩ := Option.isSome_iff_exists.mp hs
        exact ⟨d, v, by simp [calcLaser, hlf, laserLoop, hdv],
          laserGo_nonneg _ _ _ _ _ _ hrv1 hdv⟩
    simp only [calculate, hskip', Bool.false_eq_true, if_false, hg, if_true, hcl]
    refine ⟨rfl, ?_⟩
    intro p hp
    rw [Option.some.injEq] at hp
    subst hp
    refine ⟨?_, hfe _ hrvL⟩
    dsimp only
    split
    · omega
    · omega

/-- Witness for C1 at `c1w` (all hypotheses hold there). -/
theorem C1_result_bounds_witness : (calculate c1w).isSome = true :=
  (C1_result_bounds c1w (by decide) (by decide) (by norm_num [c1w])
    (by decide) (by decide) (by decide) (by decide) (by decide)
    (by norm_num [c1w]) (by norm_num [c1w]) (by decide)).1

/-! ## Claim C2 -/

open ParallelHelper

theorem totalOf_nonneg {coll : IngredientCollection} {n : String}
    (h : ∀ i ∈ coll, 0 ≤ i.quantity) : 0 ≤ totalOf coll n := by
  unfold totalOf
  refine List.sum_nonneg ?_
  intro x hx
  obtain ⟨i, hi, rfl⟩ := List.mem_map.mp hx
  exact h i (List.mem_of_mem_filter hi)

/-- Bounds invariant of the `max_parallel_calculated_by_inputs` loop:
with a nonnegative bound and nonnegative quantities, a returned count
lies in `[0, mp]`. -/
theorem maxParallelGo_bounds {inputs recipeAll : IngredientCollection}
    (hin : ∀ i ∈ inputs, 0 ≤ i.quantity)
    (hrec : ∀ i ∈ recipeAll, 0 ≤ i.quantity) :
    ∀ (l : List Ingredient) (acc : Option ℚ) (mp : ℤ), 0 ≤ mp →
      (∀ r, acc = some r → 0 ≤ r) →
      ∀ res, maxParallelGo inputs recipeAll mp l acc = some res →
        0 ≤ res ∧ res ≤ mp := by
  intro l
  induction l with
  | nil =>
    intro acc mp hmp hacc res hres
    cases acc with
    | none =>
      simp only [maxParallelGo, Option.some.injEq] at hres
      omega
    | some r =>
      simp only [maxParallelGo, Option.some.injEq] at hres
      have hr := hacc r rfl
      have : 0 ≤ ⌊r⌋ := Int.floor_nonneg.mpr hr
      subst hres
      constructor
      · exact le_min hmp this
      · exact min_le_left _ _
  | cons ing rest ih =>
    intro acc mp hmp hacc res hres
    rw [maxParallelGo] at hres
    by_cases hcn : containsName inputs ing.name = true
    · rw [if_pos hcn] at hres
      by_cases hden : totalOf recipeAll ing.name = 0
      · rw [if_pos hden] at hres; cases hres
      · rw [if_neg hden] at hres
        refine ih _ mp hmp ?_ res hres
        intro r hr
        rw [Option.some.injEq] at hr
        have hnum : 0 ≤ totalOf inputs ing.name := totalOf_nonneg hin
        have hden' : 0 < totalOf recipeAll ing.name :=
          lt_of_le_of_ne (totalOf_nonneg hrec) (Ne.symm hden)
        have hratio : 0 ≤ totalOf inputs ing.name / totalOf recipeAll ing.name :=
          div_nonneg hnum hden'.le
        cases acc with
        | none => rw [← hr]; exact hratio
        | some r0 =>
          rw [← hr]
          exact le_min hratio (hacc r0 rfl)
    · rw [if_neg hcn, Option.some.injEq] at hres
      omega

/-- The sub-tick duration projection is positive whenever the
configuration is validated and the recipe has a positive duration and
speed boost. -/
theorem durationUnderOneTick_pos {c : OverclockCalculator} {t : ℚ}
    (hv : validate c = true) (hdur : 1 ≤ c.duration) (hsb : 0 < c.speed_boost)
    (ht : durationUnderOneTick c = some t) : 0 < t := by
  rcases validate_defs hv with ⟨-, hdd, hddh, -⟩
  have hdQ : (0:ℚ) < (c.duration : ℚ) := Int.cast_pos.mpr (by omega)
  unfold durationUnderOneTick at ht
  split at ht
  · rw [Option.some.injEq] at ht
    rw [← ht]; exact hdQ
  · split at ht
    · rw [Option.some.injEq] at ht
      rw [← ht]
      refine div_pos (mul_pos hdQ hsb) (mul_pos ?_ ?_)
      · exact zpow_pos (Int.cast_pos.mpr hdd) _
      · exact zpow_pos (Int.cast_pos.mpr hddh) _
    · cases ht

/-- Bounds of the tail of `build()`: with nonnegative quantities and a
validated helper, the achieved parallel count lies within `[0, mp1]`
where `mp1` is the (possibly sub-tick-inflated) ceiling. -/
theorem build_tail_bounds (hp : ParallelHelper)
    (hval : helperValidate hp = true)
    (hinq : ∀ i ∈ hp.ingredient_inputs, 0 ≤ i.quantity)
    (hrq : ∀ i ∈ hp.recipe_inputs, 0 ≤ i.quantity)
    (mp1 : ℤ) (hmp1 : 0 ≤ mp1) :
    ∀ q, buildTail hp mp1 = some q → 0 ≤ q.2.parallel ∧ q.2.parallel ≤ mp1 := by
  intro q hq
  have hva : actualRecipeEut hp ≤ availableEut hp := by
    simpa [helperValidate] using hval
  unfold buildTail at hq
  simp only at hq
  have hbounds : 0 ≤ (if 0 < actualRecipeEut hp then
        min mp1 (intTrunc ((availableEut hp : ℚ) / (actualRecipeEut hp : ℚ)))
      else mp1)
      ∧ (if 0 < actualRecipeEut hp then
        min mp1 (intTrunc ((availableEut hp : ℚ) / (actualRecipeEut hp : ℚ)))
      else mp1) ≤ mp1 := by
    split
    · rename_i hpos
      have hq2 : (0:ℚ) < (availableEut hp : ℚ) / (actualRecipeEut hp : ℚ) :=
        div_pos (Int.cast_pos.mpr (by omega)) (Int.cast_pos.mpr hpos)
      have : 0 ≤ intTrunc ((availableEut hp : ℚ) / (actualRecipeEut hp : ℚ)) := by
        simp only [intTrunc, if_neg (not_lt.mpr hq2.le)]
        exact Int.floor_nonneg.mpr hq2.le
      exact ⟨le_min hmp1 this, min_le_left _ _⟩
    · exact ⟨hmp1, le_rfl⟩
  rcases hmc : maxParallelCalculatedByInputs hp
      (if 0 < actualRecipeEut hp then
        min mp1 (intTrunc ((availableEut hp : ℚ) / (actualRecipeEut hp : ℚ)))
      else mp1) with _ | current
  · rw [hmc] at hq; cases hq
  rw [hmc] at hq
  simp only at hq
  have hcur := maxParallelGo_bounds hinq hrq hp.recipe_inputs none _ hbounds.1
    (by intro r hr; cases hr) current hmc
  rcases heuc : eutConsumptionUnderOneTick
      (hp.calculator.withParallel hp.max_parallel) hp.max_parallel current
    with _ | eutUse
  · rw [heuc] at hq; cases hq
  rw [heuc] at hq
  simp only at hq
  split at hq
  · rcases hcc : OverclockCalculator.calculate
        ((hp.calculator.withParallel hp.max_parallel).withParallel
          (min current hp.max_parallel)) with _ | p3
    · rw [hcc] at hq; cases hq
    · rw [hcc] at hq
      rcases p3 with ⟨c3, res⟩
      simp only [Option.some.injEq] at hq
      subst hq
      exact ⟨hcur.1, le_trans hcur.2 hbounds.2⟩
  · cases hq

/-- C2 (amended): for a validated helper over a validated calculator
with positive requested maximum, positive recipe duration and speed
boost, and nonnegative ingredient quantities, a `build()` result has
parallel count ≥ 0, and the count is capped by the requested maximum
whenever the sub-tick duration projection is at least one tick.  (When
the projection is below one tick, the count may exceed the requested
maximum — see the counterexample.) -/
theorem C2_parallel_bounds (hp : ParallelHelper)
    (hval : helperValidate hp = true)
    (hcal : OverclockCalculator.validate hp.calculator = true)
    (hmp : 0 < hp.max_parallel)
    (hdur : 1 ≤ hp.calculator.duration)
    (hsb : 0 < hp.calculator.speed_boost)
    (hinq : ∀ i ∈ hp.ingredient_inputs, 0 ≤ i.quantity)
    (hrq : ∀ i ∈ hp.recipe_inputs, 0 ≤ i.quantity) :
    ∀ q, build hp = some q →
      0 ≤ q.2.parallel ∧
        (∀ t, durationUnderOneTick (hp.calculator.withParallel hp.max_parallel) = some t →
          1 ≤ t → q.2.parallel ≤ hp.max_parallel) := by
  intro q hq
  unfold build at hq
  rw [if_neg (by omega)] at hq
  rcases hdu : durationUnderOneTick (hp.calculator.withParallel hp.max_parallel)
    with _ | tick
  · rw [hdu] at hq; exact absurd hq (by simp)
  rw [hdu] at hq
  simp only at hq
  have htick : 0 < tick :=
    durationUnderOneTick_pos (c := hp.calculator.withParallel hp.max_parallel)
      hcal hdur hsb hdu
  have hORIG : (0:ℚ) < (hp.max_parallel : ℚ) := Int.cast_pos.mpr hmp
  by_cases h1 : tick < 1
  · -- sub-tick case: the cap conclusion is vacuous
    rw [if_pos h1, if_neg (ne_of_gt htick)] at hq
    have hq2 : (0:ℚ) ≤ (hp.max_parallel : ℚ) / tick := (div_pos hORIG htick).le
    have hmp1 : 0 ≤ intTrunc ((hp.max_parallel : ℚ) / tick) := by
      simp only [intTrunc, if_neg (not_lt.mpr hq2)]
      exact Int.floor_nonneg.mpr hq2
    refine ⟨(build_tail_bounds hp hval hinq hrq _ hmp1 q hq).1, ?_⟩
    intro t ht h1t
    cases ht
    exact absurd h1t (not_le.mpr h1)
  · rw [if_neg h1] at hq
    have hb := build_tail_bounds hp hval hinq hrq _ (by omega) q hq
    exact ⟨hb.1, fun t ht h1t => hb.2⟩

theorem build_hpC2_eval : build hpC2 = some (cA, ⟨16, 512, 1, ⟨1, 2, 0⟩⟩) := by
  have htd : tierDiffTrunc (machinePower cA) (recipePower cA (heatDiscountMultiplier cA)) = 4 := by
    simp only [tierDiffTrunc, log4Trunc, qLogFloor, ptArg, machinePower, recipePower,
      effectiveAmperage, heatDiscountMultiplier, heatDiscounts, cA]
    norm_num
    decide
  have hah : amountOfHeatOverclocks cA = 0 := by
    simp only [amountOfHeatOverclocks, htd]
    simp only [cA]
    norm_num [show Int.fdiv 0 1800 = 0 from by decide]
  have hG1 : (heatPowGuard cA && decide (0 < machinePower cA)
      && decide (0 < recipePower cA (heatDiscountMultiplier cA))) = true := by
    simp only [heatPowGuard, heatDiscounts, heatDiscountMultiplier, machinePower,
      recipePower, effectiveAmperage, cA]
    norm_num
  have hdu : durationUnderOneTick cA = some (1/16) := by
    simp only [durationUnderOneTick, show cA.does_not_overclock = false from rfl,
      Bool.false_eq_true, if_false, hG1, if_true, htd, hah,
      show cA.limits_overclocks = false from rfl]
    simp only [cA]
    norm_num
  have hrmd : recipeToMachineVoltageDiff cA = 4 := by
    simp only [recipeToMachineVoltageDiff, ptCeil, ptArg, cA]
    norm_num
    decide
  have hG2 : (heatPowGuard cA
      && !(decide ((1 : ℤ) = 0))
      && decide (0 < ((16 : ℤ) : ℚ) / ((1 : ℤ) : ℚ))
      && !(decide (cA.duration_decrease_per_heat_oc = 1))
      && !(decide (cA.duration_decrease_per_oc = 1))
      && decide (0 < machinePower cA)
      && decide (0 < recipePower cA (heatDiscountMultiplier cA))
      && (decide (8 < cA.recipe_voltage)
          || (decide (0 < cA.machine_voltage) && decide (0 < cA.recipe_voltage)))) = true := by
    simp only [heatPowGuard, heatDiscounts, heatDiscountMultiplier, machinePower,
      recipePower, effectiveAmperage, cA]
    norm_num
  have heu : eutConsumptionUnderOneTick cA 1 16 = some 512 := by
    simp only [eutConsumptionUnderOneTick, show cA.does_not_overclock = false from rfl,
      Bool.false_eq_true, if_false, hG2, if_true, htd, hrmd,
      show cA.limits_overclocks = false from rfl,
      show (cA.recipe_voltage ≤ 8) = True from by norm_num [cA]]
    simp only [heatDiscountMultiplier, heatDiscounts, cA]
    norm_num
  have hocA : overclockCount cA = 0 := by
    simp only [overclockCount, htd, hrmd, clogZ]
    simp only [cA]
    norm_num
    decide
  have hhocA : heatOverclockCount cA = 0 := by
    simp only [heatOverclockCount, hocA, hah]
    simp only [cA]
    norm_num
  have hgA : mainGuards cA = true := by
    simp only [mainGuards, heatPowGuard, heatDiscounts, heatDiscountMultiplier,
      machinePower, recipePower, effectiveAmperage, cA]
    norm_num
  have hrv1A : calcRv1 cA = 2 := by
    simp only [calcRv1, hocA]
    simp only [cA]
    norm_num
  have hdur0A : calcDur0 cA = 1 := by
    simp only [calcDur0, cA]; norm_num
  have hdur1A : calcDur1 cA = 1 := by
    simp only [calcDur1, hdur0A, hocA, hhocA]
    simp only [cA]
    norm_num
  have hdur2A : calcDur2 cA = 1 := by
    simp only [calcDur2, hdur1A, hhocA]
    simp only [cA]
    norm_num
  have hclA : calcLaser cA = some (1, 2) := by
    simp only [calcLaser, hdur2A, hrv1A]
    simp only [show cA.does_laser_oc = false from rfl, Bool.false_eq_true, if_false]
  have hfreA : finalRecipeEut cA 2 (heatDiscountMultiplier cA) = 2 := by
    simp only [finalRecipeEut, heatDiscountMultiplier, heatDiscounts, cA]
    norm_num
  have hcalcA : calculate cA = some (cA, ⟨1, 2, 0⟩) := by
    simp only [calculate, show cA.does_not_overclock = false from rfl,
      Bool.false_eq_true, if_false, hgA, if_true, hclA, hocA, hfreA,
      calcState, show cA.has_one_tick_discount = false from rfl]
    norm_num
  have hare : actualRecipeEut hpC2 = 2 := by
    simp only [actualRecipeEut, hpC2]; norm_num
  have hava : availableEut hpC2 = 8192 := by decide
  have hmpi : maxParallelCalculatedByInputs hpC2 16 = some 16 := rfl
  have hc1 : hpC2.calculator.withParallel hpC2.max_parallel = cA := rfl
  have hbt : buildTail hpC2 16 = some (cA, ⟨16, 512, 1, ⟨1, 2, 0⟩⟩) := by
    simp only [buildTail, hc1, hare, hava]
    norm_num [intTrunc, min_def]
    simp only [hmpi, show hpC2.max_parallel = 1 from rfl, heu]
    norm_num [min_def]
    simp only [show cA.withParallel 1 = cA from rfl,
      show validate cA = true from by decide, if_true, hcalcA]
    norm_num
  simp only [build, show ¬(hpC2.max_parallel ≤ 0) from by decide, if_neg, hc1, hdu]
  norm_num [intTrunc]
  simp only [show hpC2.max_parallel = 1 from rfl]
  norm_num
  exact hbt

/-- C2 (counterexample): `hpC2` passes `validate()`, its sub-tick
projection is `1/16 < 1`, and `build()` reports parallel count 16 —
exceeding the requested maximum 1 (the reported power 512 is the
sub-tick-interpolated draw for 16 parallels). -/
theorem C2_subtick_counterexample :
    helperValidate hpC2 = true
      ∧ build hpC2 = some (cA, ⟨16, 512, 1, ⟨1, 2, 0⟩⟩)
      ∧ hpC2.max_parallel < 16 := by
  refine ⟨?_, build_hpC2_eval, by decide⟩
  simp only [helperValidate, actualRecipeEut, availableEut, hpC2]
  norm_num

/-- Witness for C2 at `hpC2` (the parallel count is nonnegative). -/
theorem C2_parallel_bounds_witness :
    0 ≤ (⟨16, 512, 1, ⟨1, 2, 0⟩⟩ : ParallelHelperResult).parallel :=
  (C2_parallel_bounds hpC2
    (by simp only [helperValidate, actualRecipeEut, availableEut, hpC2]; norm_num)
    (by decide) (by decide) (by decide)
    (by norm_num [hpC2]) (by simp [hpC2]) (by simp [hpC2])
    (cA, ⟨16, 512, 1, ⟨1, 2, 0⟩⟩) build_hpC2_eval).1

/-! ## Claim C5 -/

/-- `calculate()` leaves the configuration unchanged when the
`has_one_tick_discount` branch (the only field write) is off. -/
theorem calculate_fst (c : OverclockCalculator)
    (hf : c.has_one_tick_discount = false) :
    ∀ p, calculate c = some p → p.1 = c := by
  intro p hp
  unfold calculate at hp
  split at hp
  · split at hp
    · rw [Option.some.injEq] at hp; subst hp; rfl
    · cases hp
  · split at hp
    · rcases hcl : calcLaser c with _ | pr
      · rw [hcl] at hp; cases hp
      · rcases pr with ⟨d, v⟩
        rw [hcl] at hp
        simp only [Option.some.injEq] at hp
        subst hp
        simp [calcState, hf]
    · cases hp

/-- The tail of `build()` mutates only the calculator's `parallel`
field (to `min current ORIG`), provided the one-tick branch is off. -/
theorem buildTail_fst (hp : ParallelHelper)
    (hf : hp.calculator.has_one_tick_discount = false) :
    ∀ mp1 q, buildTail hp mp1 = some q →
      q.1 = hp.calculator.withParallel q.1.parallel := by
  intro mp1 q hq
  unfold buildTail at hq
  simp only at hq
  rcases hmc : maxParallelCalculatedByInputs hp
      (if 0 < actualRecipeEut hp then
        min mp1 (intTrunc ((availableEut hp : ℚ) / (actualRecipeEut hp : ℚ)))
      else mp1) with _ | current
  · rw [hmc] at hq; cases hq
  rw [hmc] at hq
  simp only at hq
  rcases heuc : eutConsumptionUnderOneTick
      (hp.calculator.withParallel hp.max_parallel) hp.max_parallel current
    with _ | eutUse
  · rw [heuc] at hq; cases hq
  rw [heuc] at hq
  simp only at hq
  split at hq
  · rcases hcc : OverclockCalculator.calculate
        ((hp.calculator.withParallel hp.max_parallel).withParallel
          (min current hp.max_parallel)) with _ | p3
    · rw [hcc] at hq; cases hq
    · rcases p3 with ⟨c3, res⟩
      rw [hcc] at hq
      simp only [Option.some.injEq] at hq
      subst hq
      have h3 := calculate_fst
        ((hp.calculator.withParallel hp.max_parallel).withParallel
          (min current hp.max_parallel)) hf _ hcc
      simp only at h3
      rw [h3]
      rfl
  · cases hq

/-- `build()` mutates only the calculator's `parallel` field (one-tick
branch off). -/
theorem build_fst (hp : ParallelHelper)
    (hf : hp.calculator.has_one_tick_discount = false) :
    ∀ q, build hp = some q → q.1 = hp.calculator.withParallel q.1.parallel := by
  intro q hq
  unfold build at hq
  split at hq
  · rw [Option.some.injEq] at hq
    subst hq
    rfl
  · rcases hdu : durationUnderOneTick (hp.calculator.withParallel hp.max_parallel)
      with _ | tick
    · rw [hdu] at hq; cases hq
    rw [hdu] at hq
    simp only at hq
    split at hq
    · split at hq
      · cases hq
      · exact buildTail_fst hp hf _ q hq
    · exact buildTail_fst hp hf _ q hq

/-- C5 (amended): `calculate()` leaves every configuration field
unchanged provided `has_one_tick_discount` is off (with the flag it
rewrites `recipe_voltage`, see C4), and `build()` leaves every field of
the wrapped calculator unchanged except `parallel`, which it sets to
the achieved count capped by the requested maximum. -/
theorem C5_mutation_frame (c : OverclockCalculator) (hp : ParallelHelper)
    (hc : c.has_one_tick_discount = false)
    (hhp : hp.calculator.has_one_tick_discount = false) :
    (∀ p, calculate c = some p → p.1 = c) ∧
      (∀ q, build hp = some q → q.1 = hp.calculator.withParallel q.1.parallel) :=
  ⟨calculate_fst c hc, build_fst hp hhp⟩

theorem build_hpC5_eval : build hpC5 = some (cB, ⟨64, 2048, 1, ⟨1, 8, 0⟩⟩) := by
  have htd : tierDiffTrunc (machinePower cB) (recipePower cB (heatDiscountMultiplier cB)) = 4 := by
    simp only [tierDiffTrunc, log4Trunc, qLogFloor, ptArg, machinePower, recipePower,
      effectiveAmperage, heatDiscountMultiplier, heatDiscounts, cB]
    norm_num
    decide
  have hah : amountOfHeatOverclocks cB = 0 := by
    simp only [amountOfHeatOverclocks, htd]
    simp only [cB]
    norm_num [show Int.fdiv 0 1800 = 0 from by decide]
  have hG1 : (heatPowGuard cB && decide (0 < machinePower cB)
      && decide (0 < recipePower cB (heatDiscountMultiplier cB))) = true := by
    simp only [heatPowGuard, heatDiscounts, heatDiscountMultiplier, machinePower,
      recipePower, effectiveAmperage, cB]
    norm_num
  have hdu : durationUnderOneTick cB = some (1/16) := by
    simp only [durationUnderOneTick, show cB.does_not_overclock = false from rfl,
      Bool.false_eq_true, if_false, hG1, if_true, htd, hah,
      show cB.limits_overclocks = false from rfl]
    simp only [cB]
    norm_num
  have hrmd : recipeToMachineVoltageDiff cB = 4 := by
    simp only [recipeToMachineVoltageDiff, ptCeil, ptArg, cB]
    norm_num
    decide
  have hG2 : (heatPowGuard cB
      && !(decide ((4 : ℤ) = 0))
      && decide (0 < ((64 : ℤ) : ℚ) / ((4 : ℤ) : ℚ))
      && !(decide (cB.duration_decrease_per_heat_oc = 1))
      && !(decide (cB.duration_decrease_per_oc = 1))
      && decide (0 < machinePower cB)
      && decide (0 < recipePower cB (heatDiscountMultiplier cB))
      && (decide (8 < cB.recipe_voltage)
          || (decide (0 < cB.machine_voltage) && decide (0 < cB.recipe_voltage)))) = true := by
    simp only [heatPowGuard, heatDiscounts, heatDiscountMultiplier, machinePower,
      recipePower, effectiveAmperage, cB]
    norm_num
  have heu : eutConsumptionUnderOneTick cB 4 64 = some 2048 := by
    simp only [eutConsumptionUnderOneTick, show cB.does_not_overclock = false from rfl,
      Bool.false_eq_true, if_false, hG2, if_true, htd, hrmd,
      show cB.limits_overclocks = false from rfl,
      show (cB.recipe_voltage ≤ 8) = True from by norm_num [cB]]
    simp only [heatDiscountMultiplier, heatDiscounts, cB]
    norm_num
  have hocB : overclockCount cB = 0 := by
    simp only [overclockCount, htd, hrmd, clogZ]
    simp only [cB]
    norm_num
    decide
  have hhocB : heatOverclockCount cB = 0 := by
    simp only [heatOverclockCount, hocB, hah]
    simp only [cB]
    norm_num
  have hgB : mainGuards cB = true := by
    simp only [mainGuards, heatPowGuard, heatDiscounts, heatDiscountMultiplier,
      machinePower, recipePower, effectiveAmperage, cB]
    norm_num
  have hrv1B : calcRv1 cB = 2 := by
    simp only [calcRv1, hocB]
    simp only [cB]
    norm_num
  have hdur0B : calcDur0 cB = 1 := by
    simp only [calcDur0, cB]; norm_num
  have hdur1B : calcDur1 cB = 1 := by
    simp only [calcDur1, hdur0B, hocB, hhocB]
    simp only [cB]
    norm_num
  have hdur2B : calcDur2 cB = 1 := by
    simp only [calcDur2, hdur1B, hhocB]
    simp only [cB]
    norm_num
  have hclB : calcLaser cB = some (1, 2) := by
    simp only [calcLaser, hdur2B, hrv1B]
    simp only [show cB.does_laser_oc = false from rfl, Bool.false_eq_true, if_false]
  have hfreB : finalRecipeEut cB 2 (heatDiscountMultiplier cB) = 8 := by
    simp only [finalRecipeEut, heatDiscountMultiplier, heatDiscounts, cB]
    norm_num
  have hcalcB : calculate cB = some (cB, ⟨1, 8, 0⟩) := by
    simp only [calculate, show cB.does_not_overclock = false from rfl,
      Bool.false_eq_true, if_false, hgB, if_true, hclB, hocB, hfreB,
      calcState, show cB.has_one_tick_discount = false from rfl]
    norm_num
  have hare : actualRecipeEut hpC5 = 2 := by
    simp only [actualRecipeEut, hpC5]; norm_num
  have hava : availableEut hpC5 = 8192 := by decide
  have hmpi : maxParallelCalculatedByInputs hpC5 64 = some 64 := rfl
  have hc1 : hpC5.calculator.withParallel hpC5.max_parallel = cB := rfl
  have hbt : buildTail hpC5 64 = some (cB, ⟨64, 2048, 1, ⟨1, 8, 0⟩⟩) := by
    simp only [buildTail, hc1, hare, hava]
    norm_num [intTrunc, min_def]
    simp only [hmpi, show hpC5.max_parallel = 4 from rfl, heu]
    norm_num [min_def]
    simp only [show cB.withParallel 4 = cB from rfl,
      show validate cB = true from by decide, if_true, hcalcB]
    norm_num
  simp only [build, show ¬(hpC5.max_parallel ≤ 0) from by decide, if_neg, hc1, hdu]
  norm_num [intTrunc]
  simp only [show hpC5.max_parallel = 4 from rfl]
  norm_num
  exact hbt

/-- C5 (counterexample): `build hpC5` returns with the wrapped
calculator's `parallel` field changed from 1 to 4 — the configuration
is mutated after validation. -/
theorem C5_build_mutates_parallel_counterexample :
    build hpC5 = some (cB, ⟨64, 2048, 1, ⟨1, 8, 0⟩⟩)
      ∧ hpC5.calculator.parallel = 1
      ∧ cB.parallel = 4
      ∧ cB ≠ hpC5.calculator :=
  ⟨build_hpC5_eval, rfl, rfl, by decide⟩

/-- Witness for C5 at `hpC5`: the mutated state differs from the
original only in `parallel`. -/
theorem C5_mutation_frame_witness :
    cB = hpC5.calculator.withParallel cB.parallel :=
  (C5_mutation_frame hpC5.calculator hpC5 (by decide) (by decide)).2
    (cB, ⟨64, 2048, 1, ⟨1, 8, 0⟩⟩) build_hpC5_eval

/-! ## Claim C4 -/

theorem calculate_c4bad_eval : calculate c4bad = some (c4bad2, ⟨1, 8, 1⟩) := by
  have hg : mainGuards c4bad = true := by
    simp only [mainGuards, heatPowGuard, heatDiscounts, heatDiscountMultiplier,
      machinePower, recipePower, effectiveAmperage, c4bad]
    norm_num
  have hoc : overclockCount c4bad = 1 := by
    simp only [overclockCount, tierDiffTrunc, log4Trunc, qLogFloor, ptArg, clogZ,
      machinePower, recipePower, effectiveAmperage, heatDiscountMultiplier, heatDiscounts,
      recipeToMachineVoltageDiff, ptCeil, c4bad]
    norm_num
    decide
  have hhoc : heatOverclockCount c4bad = 0 := by
    simp only [heatOverclockCount, hoc]
    simp only [c4bad]
    norm_num
  have hrv1 : calcRv1 c4bad = 8 := by
    simp only [calcRv1, hoc]
    simp only [c4bad]
    norm_num
  have hdur0 : calcDur0 c4bad = 2 := by
    simp only [calcDur0, c4bad]; norm_num
  have hdur1 : calcDur1 c4bad = 1 := by
    simp only [calcDur1, hdur0, hoc, hhoc]
    simp only [c4bad]
    norm_num
  have hdur2 : calcDur2 c4bad = 1 := by
    simp only [calcDur2, hdur1, hhoc]
    simp only [c4bad]
    norm_num
  have hcl : calcLaser c4bad = some (1, 8) := by
    simp only [calcLaser, hdur2, hrv1]
    simp only [c4bad]
    norm_num
  have hote : oneTickExp (machinePower c4bad)
      (recipePower c4bad (heatDiscountMultiplier c4bad)) (overclockCount c4bad) = 3 := by
    simp only [hoc]
    simp only [oneTickExp, log4Trunc, qLogFloor, ptArg, machinePower, recipePower,
      effectiveAmperage, heatDiscountMultiplier, heatDiscounts, c4bad]
    norm_num
    decide
  have hstate : calcState c4bad = c4bad2 := by
    simp only [calcState, oneTickVoltage, hote]
    simp only [show c4bad.has_one_tick_discount = true from rfl, if_true, c4bad2]
    norm_num [show ((c4bad.recipe_voltage : ℚ)) = 2 from rfl,
      show ((c4bad.duration_decrease_per_oc : ℚ)) = 2 from rfl]
  have hfre : finalRecipeEut c4bad 8 (heatDiscountMultiplier c4bad) = 8 := by
    simp only [finalRecipeEut, heatDiscountMultiplier, heatDiscounts, c4bad]
    norm_num
  simp only [calculate, show c4bad.does_not_overclock = false from rfl,
    Bool.false_eq_true, if_false, hg, if_true, hcl, hstate, hoc, hfre]
  norm_num

theorem calculate_c4bad2_eval : calculate c4bad2 = some (c4bad2, ⟨1, 4, 1⟩) := by
  have hg : mainGuards c4bad2 = true := by
    simp only [mainGuards, heatPowGuard, heatDiscounts, heatDiscountMultiplier,
      machinePower, recipePower, effectiveAmperage, c4bad2, c4bad]
    norm_num
  have hoc : overclockCount c4bad2 = 1 := by
    simp only [overclockCount, tierDiffTrunc, log4Trunc, qLogFloor, ptArg, clogZ,
      machinePower, recipePower, effectiveAmperage, heatDiscountMultiplier, heatDiscounts,
      recipeToMachineVoltageDiff, ptCeil, c4bad2, c4bad]
    norm_num
    decide
  have hhoc : heatOverclockCount c4bad2 = 0 := by
    simp only [heatOverclockCount, hoc]
    simp only [c4bad2, c4bad]
    norm_num
  have hrv1 : calcRv1 c4bad2 = 4 := by
    simp only [calcRv1, hoc]
    simp only [c4bad2, c4bad]
    norm_num
  have hdur0 : calcDur0 c4bad2 = 2 := by
    simp only [calcDur0, c4bad2, c4bad]; norm_num
  have hdur1 : calcDur1 c4bad2 = 1 := by
    simp only [calcDur1, hdur0, hoc, hhoc]
    simp only [c4bad2, c4bad]
    norm_num
  have hdur2 : calcDur2 c4bad2 = 1 := by
    simp only [calcDur2, hdur1, hhoc]
    simp only [c4bad2, c4bad]
    norm_num
  have hcl : calcLaser c4bad2 = some (1, 4) := by
    simp only [calcLaser, hdur2, hrv1]
    simp only [c4bad2, c4bad]
    norm_num
  have hote : oneTickExp (machinePower c4bad2)
      (recipePower c4bad2 (heatDiscountMultiplier c4bad2)) (overclockCount c4bad2) = 3 := by
    simp only [hoc]
    simp only [oneTickExp, log4Trunc, qLogFloor, ptArg, machinePower, recipePower,
      effectiveAmperage, heatDiscountMultiplier, heatDiscounts, c4bad2, c4bad]
    norm_num
    decide
  have hstate : calcState c4bad2 = c4bad2 := by
    simp only [calcState, oneTickVoltage, hote]
    simp only [show c4bad2.has_one_tick_discount = true from rfl, if_true]
    norm_num [show ((c4bad2.recipe_voltage : ℚ)) = 1 from rfl,
      show ((c4bad2.duration_decrease_per_oc : ℚ)) = 2 from rfl]
    rfl
  have hfre : finalRecipeEut c4bad2 4 (heatDiscountMultiplier c4bad2) = 4 := by
    simp only [finalRecipeEut, heatDiscountMultiplier, heatDiscounts, c4bad2, c4bad]
    norm_num
  simp only [calculate, show c4bad2.does_not_overclock = false from rfl,
    Bool.false_eq_true, if_false, hg, if_true, hcl, hstate, hoc, hfre]
  norm_num

/-- C4: with `has_one_tick_discount`, `calculate()` stores a changed
`recipe_voltage` back into the configuration (the class docstring says
results are never stored in inner state), so a second `calculate()` on
the unmutated-by-the-caller configuration returns power 4 instead of 8:
the two results are not identical. -/
theorem C4_one_tick_discount_mutation_bug :
    calculate c4bad = some (c4bad2, ⟨1, 8, 1⟩)
      ∧ calculate c4bad2 = some (c4bad2, ⟨1, 4, 1⟩)
      ∧ (⟨1, 8, 1⟩ : OverclockCalculatorResult) ≠ ⟨1, 4, 1⟩ :=
  ⟨calculate_c4bad_eval, calculate_c4bad2_eval, by decide⟩

/-! ## Claim C3 -/

theorem c3fix_hdm : heatDiscountMultiplier c3fix = 361/400 := by
  simp only [heatDiscountMultiplier, heatDiscounts, c3fix]
  norm_num [show Int.fdiv (3600 - 1800) 900 = 2 from by decide,
    show Int.fdiv 1800 900 = 2 from by decide]

theorem c3fix_tierDiff :
    tierDiffTrunc (machinePower c3fix) (recipePower c3fix (heatDiscountMultiplier c3fix)) = 4 := by
  rw [c3fix_hdm]
  simp only [tierDiffTrunc, log4Trunc, qLogFloor, ptArg, machinePower, recipePower,
    effectiveAmperage, c3fix]
  norm_num
  decide

theorem c3fix_oc : overclockCount c3fix = 4 := by
  simp only [overclockCount, c3fix_tierDiff, clogZ, recipeToMachineVoltageDiff,
    ptCeil, ptArg]
  simp only [c3fix]
  norm_num
  decide

theorem c3fix_hoc : heatOverclockCount c3fix = 1 := by
  simp only [heatOverclockCount, c3fix_oc, amountOfHeatOverclocks, c3fix_tierDiff,
    show c3fix.does_heat_oc = true from rfl, if_true]
  simp only [c3fix]
  norm_num [show Int.fdiv (3600 - 1800) 1800 = 1 from by decide,
    show Int.fdiv 1800 1800 = 1 from by decide]

/-- C3 (counterexample): at the repository's own EBF fixture with heat
surplus exactly `1800 = 1800*1 + 900*0` (`k = 1`, `j = 0`), the heat
discount multiplier is `0.95^2 = 361/400`, not `0.95^j = 0.95^0 = 1`
(the `//900` exponent counts every 900 K of surplus, including the
1800 K consumed by the perfect overclock); the heat step count is 1. -/
theorem C3_heat_discount_counterexample :
    heatDiscountMultiplier c3fix = 361/400
      ∧ (361/400 : ℚ) ≠ ((19:ℚ)/20) ^ (0 : ℤ)
      ∧ heatOverclockCount c3fix = 1 :=
  ⟨c3fix_hdm, by norm_num, c3fix_hoc⟩

/-- C3 (amended): with heat overclocking and heat discount enabled, a
heat surplus `1800k + 900j` (`0 ≤ j < 2`) and sufficient voltage
headroom (at least `k` overclocks available), `calculate()`'s heat
discount multiplier is `heat_discount_multi^(2k+j)` — `0.95^(2k+j)`
at the default base, not `0.95^j` — and the number of perfect (heat)
overclock steps is exactly `k`. -/
theorem C3_heat_discount_and_steps (c : OverclockCalculator) (k j : ℤ)
    (hhd : c.has_heat_discount = true) (hho : c.does_heat_oc = true)
    (hsur : c.machine_heat - c.recipe_heat = 1800 * k + 900 * j)
    (hj : 0 ≤ j) (hj2 : j < 2)
    (hhead : k ≤ tierDiffTrunc (machinePower c) (recipePower c (heatDiscountMultiplier c)))
    (hoc : k ≤ overclockCount c) :
    heatDiscountMultiplier c = c.heat_discount_multi ^ (2 * k + j)
      ∧ heatOverclockCount c = k := by
  have hj01 : j = 0 ∨ j = 1 := by omega
  have hd900 : Int.fdiv (1800 * k + 900 * j) 900 = 2 * k + j := by
    rw [Int.fdiv_eq_ediv _ (by norm_num),
      show 1800 * k + 900 * j = 900 * (2 * k + j) from by ring,
      Int.mul_ediv_cancel_left _ (by norm_num)]
  have hd1800 : Int.fdiv (1800 * k + 900 * j) 1800 = k := by
    rw [Int.fdiv_eq_ediv _ (by norm_num)]
    rcases hj01 with rfl | rfl
    · rw [show 1800 * k + 900 * 0 = 1800 * k from by ring,
        Int.mul_ediv_cancel_left _ (by norm_num)]
    · rw [show 1800 * k + 900 * 1 = 900 + 1800 * k from by ring,
        Int.add_mul_ediv_left 900 k (by norm_num)]
      norm_num
  refine ⟨?_, ?_⟩
  · simp only [heatDiscountMultiplier, heatDiscounts, hhd, if_true, hsur, hd900]
  · simp only [heatOverclockCount, hho, if_true, amountOfHeatOverclocks, hsur, hd1800]
    rw [min_eq_left hhead, min_eq_left hoc]

/-- Witness for C3 at `c3fix` with `k = 1`, `j = 0`. -/
theorem C3_heat_discount_and_steps_witness :
    heatDiscountMultiplier c3fix = c3fix.heat_discount_multi ^ (2 * 1 + 0 : ℤ)
      ∧ heatOverclockCount c3fix = 1 :=
  C3_heat_discount_and_steps c3fix 1 0 rfl rfl (by decide) (by decide) (by decide)
    (by rw [c3fix_tierDiff]; decide) (by rw [c3fix_oc]; decide)

/-! ## Claim C7 -/

theorem listMinAux_spec :
    ∀ (xs : List ℚ) (a b : ℚ), listMinAux (some a) xs = some b →
      (b = a ∨ b ∈ xs) ∧ b ≤ a ∧ ∀ x ∈ xs, b ≤ x := by
  intro xs
  induction xs with
  | nil =>
    intro a b hb
    simp only [listMinAux, Option.some.injEq] at hb
    subst hb
    exact ⟨Or.inl rfl, le_rfl, by simp⟩
  | cons x xs ih =>
    intro a b hb
    rw [listMinAux] at hb
    rcases ih _ _ hb with ⟨hmem, hle, hlb⟩
    constructor
    · rcases hmem with rfl | h
      · rcases le_total x a with hxa | hax
        · exact Or.inr (by simp [min_eq_left hxa])
        · exact Or.inl (min_eq_right hax)
      · exact Or.inr (List.mem_cons_of_mem _ h)
    · constructor
      · exact le_trans hle (min_le_right _ _)
      · intro y hy
        rcases List.mem_cons.mp hy with rfl | hy'
        · exact le_trans hle (min_le_left _ _)
        · exact hlb y hy'

/-- The loop of `max_parallel_calculated_by_inputs` computes the
running minimum of the availability ratios when every required name is
present and every required total is nonzero. -/
theorem maxParallelGo_eq_min {inputs recipeAll : IngredientCollection} (mp : ℤ) :
    ∀ (l : List Ingredient) (acc : Option ℚ),
      (∀ i ∈ l, totalOf recipeAll i.name ≠ 0) →
      (∀ i ∈ l, containsName inputs i.name = true) →
      maxParallelGo inputs recipeAll mp l acc =
        some (match listMinAux acc
            (l.map (fun i => totalOf inputs i.name / totalOf recipeAll i.name)) with
          | none => mp
          | some r => min mp ⌊r⌋) := by
  intro l
  induction l with
  | nil => intro acc _ _; cases acc <;> rfl
  | cons ing rest ih =>
    intro acc hden hpres
    rw [maxParallelGo, if_pos (hpres ing (by simp)),
      if_neg (hden ing (by simp))]
    rw [ih _ (fun i hi => hden i (List.mem_cons_of_mem _ hi))
      (fun i hi => hpres i (List.mem_cons_of_mem _ hi))]
    rfl

/-- Absent required names short-circuit the loop to 0. -/
theorem maxParallelGo_absent {inputs recipeAll : IngredientCollection} (mp : ℤ) :
    ∀ (l : List Ingredient) (acc : Option ℚ),
      (∀ i ∈ l, totalOf recipeAll i.name ≠ 0) →
      (∃ i ∈ l, containsName inputs i.name = false) →
      maxParallelGo inputs recipeAll mp l acc = some 0 := by
  intro l
  induction l with
  | nil => intro acc _ h; obtain ⟨i, hi, -⟩ := h; cases hi
  | cons ing rest ih =>
    intro acc hden habs
    rcases hcn : containsName inputs ing.name with _ | _
    · rw [maxParallelGo, if_neg (by simp [hcn])]
    · rw [maxParallelGo, if_pos hcn, if_neg (hden ing (by simp))]
      refine ih _ (fun i hi => hden i (List.mem_cons_of_mem _ hi)) ?_
      obtain ⟨i, hi, hif⟩ := habs
      rcases List.mem_cons.mp hi with rfl | hi'
      · rw [hcn] at hif; cases hif
      · exact ⟨i, hi', hif⟩

theorem listMinAux_isSome :
    ∀ (l : List ℚ) (a : ℚ), ∃ b, listMinAux (some a) l = some b := by
  intro l
  induction l with
  | nil => intro a; exact ⟨a, rfl⟩
  | cons x xs ih => intro a; exact ih (min x a)

/-- `listMinAux` starting from `math.inf` returns the least element. -/
theorem listMinAux_min_unique :
    ∀ (xs : List ℚ) (r : ℚ), r ∈ xs → (∀ x ∈ xs, r ≤ x) →
      listMinAux none xs = some r := by
  intro xs r hr hlb
  cases xs with
  | nil => cases hr
  | cons x l =>
    obtain ⟨b, hb⟩ := listMinAux_isSome l x
    have hstep : listMinAux none (x :: l) = listMinAux (some x) l := rfl
    rcases listMinAux_spec l x b hb with ⟨hmem, hle, hlb2⟩
    have hbmem : b ∈ x :: l := by
      rcases hmem with rfl | h
      · exact List.mem_cons_self _ _
      · exact List.mem_cons_of_mem _ h
    have h1 : r ≤ b := hlb b hbmem
    have h2 : b ≤ r := by
      rcases List.mem_cons.mp hr with rfl | hr'
      · exact hle
      · exact hlb2 r hr'
    rw [hstep, hb, le_antisymm h2 h1]

/-- C7: input-limited parallel sizing.  With positive required totals:
with no required ingredients the count is `mp` unchanged; with all
names present it is `min mp ⌊r⌋` where `r` is the smallest availability
ratio; and it is 0 whenever some required name is absent from the
inputs. -/
theorem C7_input_limited_parallel (hp : ParallelHelper) (mp : ℤ)
    (hq : ∀ i ∈ hp.recipe_inputs, 0 < totalOf hp.recipe_inputs i.name) :
    (hp.recipe_inputs = [] → maxParallelCalculatedByInputs hp mp = some mp)
      ∧ (∀ r, (∀ i ∈ hp.recipe_inputs, containsName hp.ingredient_inputs i.name = true) →
          r ∈ ratioList hp → (∀ x ∈ ratioList hp, r ≤ x) →
          maxParallelCalculatedByInputs hp mp = some (min mp ⌊r⌋))
      ∧ ((∃ i ∈ hp.recipe_inputs, containsName hp.ingredient_inputs i.name = false) →
          maxParallelCalculatedByInputs hp mp = some 0) := by
  have hden : ∀ i ∈ hp.recipe_inputs, totalOf hp.recipe_inputs i.name ≠ 0 :=
    fun i hi => ne_of_gt (hq i hi)
  refine ⟨?_, ?_, ?_⟩
  · intro h
    unfold maxParallelCalculatedByInputs
    rw [h]
    rfl
  · intro r hpres hr hrlb
    unfold maxParallelCalculatedByInputs
    rw [maxParallelGo_eq_min mp hp.recipe_inputs none hden hpres]
    have hratios : (hp.recipe_inputs.map (fun i =>
        totalOf hp.ingredient_inputs i.name / totalOf hp.recipe_inputs i.name))
        = ratioList hp := rfl
    rw [hratios, listMinAux_min_unique (ratioList hp) r hr hrlb]
  · intro habs
    exact maxParallelGo_absent mp hp.recipe_inputs none hden habs

/-- Witness for C7 at the LCR fixture `hpC7` with minimum ratio 2. -/
theorem C7_input_limited_parallel_witness :
    maxParallelCalculatedByInputs hpC7 100 = some 2 := by
  have h := (C7_input_limited_parallel hpC7 100 ?_).2.1 2 ?_ ?_ ?_
  · rw [h]
    norm_num
  · intro i hi
    simp only [hpC7, List.mem_cons, List.not_mem_nil, or_false] at hi
    rcases hi with rfl | rfl | rfl <;> simp [totalOf, hpC7]
  · intro i hi
    simp only [hpC7, List.mem_cons, List.not_mem_nil, or_false] at hi
    rcases hi with rfl | rfl | rfl <;> decide
  · show (2:ℚ) ∈ ratioList hpC7
    simp [ratioList, totalOf, hpC7]
    norm_num
  · intro x hx
    simp [ratioList, totalOf, hpC7] at hx
    rcases hx with rfl | rfl | rfl <;> norm_num

/-! ## Claim C10 -/

/-- When every required name is present but some required total is
zero, the loop of `max_parallel_calculated_by_inputs` reaches the ratio
division with denominator 0 — an unguarded `ZeroDivisionError`
(modelled `none`), for any `mp`. -/
theorem maxParallelGo_none {inputs recipeAll : IngredientCollection} (mp : ℤ) :
    ∀ (l : List Ingredient) (acc : Option ℚ),
      (∀ i ∈ l, containsName inputs i.name = true) →
      (∃ i ∈ l, totalOf recipeAll i.name = 0) →
      maxParallelGo inputs recipeAll mp l acc = none := by
  intro l
  induction l with
  | nil => intro acc _ h; obtain ⟨i, hi, -⟩ := h; cases hi
  | cons ing rest ih =>
    intro acc hpres hzero
    rw [maxParallelGo, if_pos (hpres ing (by simp))]
    by_cases hden : totalOf recipeAll ing.name = 0
    · rw [if_pos hden]
    · rw [if_neg hden]
      refine ih _ (fun i hi => hpres i (List.mem_cons_of_mem _ hi)) ?_
      obtain ⟨i, hi, hiz⟩ := hzero
      rcases List.mem_cons.mp hi with rfl | hi'
      · exact absurd hiz hden
      · exact ⟨i, hi', hiz⟩

/-- C10: if some required ingredient has total required quantity 0
while an ingredient of that name is present among the inputs (and all
required names are present), the ratio division raises an unguarded
`ZeroDivisionError`: `max_parallel_calculated_by_inputs` fails for
every `mp`, `ParallelHelper.validate()` never inspects the ingredient
collections, and `build()` propagates the failure once control reaches
the input-limited sizing step. -/
theorem C10_zero_quantity_division (hp : ParallelHelper) (mp : ℤ)
    (hpres : ∀ i ∈ hp.recipe_inputs, containsName hp.ingredient_inputs i.name = true)
    (hzero : ∃ i ∈ hp.recipe_inputs, totalOf hp.recipe_inputs i.name = 0) :
    maxParallelCalculatedByInputs hp mp = none
      ∧ (∀ ii ri, helperValidate
          { hp with ingredient_inputs := ii, recipe_inputs := ri } = helperValidate hp)
      ∧ (0 < hp.max_parallel →
          ∀ t, durationUnderOneTick (hp.calculator.withParallel hp.max_parallel) = some t →
            ¬t = 0 → build hp = none) := by
  have hnone : ∀ m, maxParallelCalculatedByInputs hp m = none := fun m =>
    maxParallelGo_none m hp.recipe_inputs none hpres hzero
  have htail : ∀ m, buildTail hp m = none := by
    intro m
    unfold buildTail
    simp only
    rw [hnone]
  refine ⟨hnone mp, fun ii ri => rfl, ?_⟩
  intro hmp t ht htz
  unfold build
  rw [if_neg (by omega), ht]
  simp only
  split
  all_goals exact htail _

/-- Witness for C10 at `hpC10` (required total 0 for "a", present among
the inputs): `validate()` accepts and `build()` fails. -/
theorem C10_zero_quantity_division_witness :
    helperValidate hpC10 = true ∧ build hpC10 = none := by
  have hc1 : hpC10.calculator.withParallel hpC10.max_parallel = hpC10.calculator := rfl
  have htd : tierDiffTrunc (machinePower hpC10.calculator)
      (recipePower hpC10.calculator (heatDiscountMultiplier hpC10.calculator)) = 4 := by
    simp only [tierDiffTrunc, log4Trunc, qLogFloor, ptArg, machinePower, recipePower,
      effectiveAmperage, heatDiscountMultiplier, heatDiscounts, hpC10]
    norm_num
    decide
  have hah : amountOfHeatOverclocks hpC10.calculator = 0 := by
    simp only [amountOfHeatOverclocks, htd]
    simp only [hpC10]
    norm_num [show Int.fdiv 0 1800 = 0 from by decide]
  have hG1 : (heatPowGuard hpC10.calculator
      && decide (0 < machinePower hpC10.calculator)
      && decide (0 < recipePower hpC10.calculator
        (heatDiscountMultiplier hpC10.calculator))) = true := by
    simp only [heatPowGuard, heatDiscounts, heatDiscountMultiplier, machinePower,
      recipePower, effectiveAmperage, hpC10]
    norm_num
  have hdu : durationUnderOneTick hpC10.calculator = some (1/16) := by
    simp only [durationUnderOneTick,
      show hpC10.calculator.does_not_overclock = false from rfl,
      Bool.false_eq_true, if_false, hG1, if_true, htd, hah,
      show hpC10.calculator.limits_overclocks = false from rfl]
    simp only [hpC10]
    norm_num
  refine ⟨?_, ?_⟩
  · simp only [helperValidate, actualRecipeEut, availableEut, hpC10]
    norm_num
  · refine (C10_zero_quantity_division hpC10 1 ?_ ?_).2.2 (by decide) (1/16) ?_ (by norm_num)
    · intro i hi
      simp only [hpC10, List.mem_cons, List.not_mem_nil, or_false] at hi
      subst hi
      decide
    · exact ⟨⟨"a", 0⟩, by simp [hpC10], by simp [totalOf, hpC10]⟩
    · rw [hc1]
      exact hdu

/-! ## Claim C9 -/

/-- C9: `validate()` accepts machine voltage 0 (it checks nothing about
voltages or power), and `calculate()` then reaches
`math.log(machine_voltage * amp, 2)` with argument 0 — a domain error
from the logarithm primitive escaping `calculate()` (modelled `none`),
not an `InvalidConfiguration` error raised before calculation. -/
theorem C9_log_domain_error_bug :
    validate c9bad = true ∧ calculate c9bad = none := by
  refine ⟨by decide, ?_⟩
  have hg : mainGuards c9bad = false := by
    simp only [mainGuards, heatPowGuard, heatDiscounts, heatDiscountMultiplier,
      machinePower, recipePower, effectiveAmperage, c9bad]
    norm_num
  simp only [calculate, show c9bad.does_not_overclock = false from rfl,
    Bool.false_eq_true, if_false, hg]

/-! ## Claim C8 -/

/-- Bridge between the integer voltage order and `tierCeilNum`:
`tierCeilNum v.toNat` is the least tier whose nominal voltage covers `v`. -/
theorem voltageTier_le_iff (v : ℤ) (n : ℕ) :
    v ≤ voltageOfTier n ↔ tierCeilNum v.toNat ≤ n := by
  rw [tierCeilNum_le_iff]
  have he : voltageOfTier n = ((2 ^ (2 * n + 3) : ℕ) : ℤ) := by
    unfold voltageOfTier
    rw [Nat.add_comm 3 (2 * n)]
    push_cast
    rfl
  rw [he]
  exact Int.toNat_le.symm

/-- `voltageOfTier` is strictly monotone (tier `n` has a strictly larger
nominal voltage than tier `n - 1` for `n ≥ 1`). -/
theorem voltageOfTier_lt_of_lt {m n : ℕ} (h : m < n) :
    voltageOfTier m < voltageOfTier n := by
  unfold voltageOfTier
  exact pow_lt_pow_right₀ (by norm_num) (by omega)

/-- C8 (amended): `VoltageTier(v)` succeeds exactly for
`1 ≤ v ≤ voltageOfTier 15 = 2^33` — not on all of
`1 ≤ v < 4 * voltageOfTier 15`, see the counterexample — and then
returns the smallest tier whose nominal voltage is `≥ v`; it fails for
`v < 1` and for `v > voltageOfTier 15`; at every exact boundary
`v = voltageOfTier n` with `n ≤ 15` it returns tier `n`. -/
theorem C8_voltage_tier_lookup :
    (∀ v : ℤ, 1 ≤ v → v ≤ voltageOfTier 15 →
      voltageTierOfValue v = some (tierCeilNum v.toNat)
        ∧ v ≤ voltageOfTier (tierCeilNum v.toNat)
        ∧ ∀ m : ℕ, v ≤ voltageOfTier m → tierCeilNum v.toNat ≤ m)
    ∧ (∀ v : ℤ, v < 1 ∨ voltageOfTier 15 < v → voltageTierOfValue v = none)
    ∧ (∀ n : ℕ, n ≤ 15 → voltageTierOfValue (voltageOfTier n) = some n) := by
  have hpos15 : (0 : ℤ) < voltageOfTier 15 := by unfold voltageOfTier; positivity
  refine ⟨?_, ?_, ?_⟩
  · intro v hv1 hv2
    have ht15 : tierCeilNum v.toNat ≤ 15 := (voltageTier_le_iff v 15).mp hv2
    refine ⟨?_, (voltageTier_le_iff v _).mpr le_rfl,
      fun m hm => (voltageTier_le_iff v m).mp hm⟩
    unfold voltageTierOfValue
    rw [if_pos ⟨hv1, by omega⟩, if_pos ht15]
  · intro v hv
    unfold voltageTierOfValue
    rcases hv with hv | hv
    · rw [if_neg]
      rintro ⟨h1, -⟩
      omega
    · split
      · rw [if_neg]
        intro hle
        exact absurd ((voltageTier_le_iff v 15).mpr hle) (not_le.mpr hv)
      · rfl
  · intro n hn
    have h2 : (0 : ℤ) < voltageOfTier n := by unfold voltageOfTier; positivity
    have ht : tierCeilNum (voltageOfTier n).toNat = n := by
      have hub : tierCeilNum (voltageOfTier n).toNat ≤ n :=
        (voltageTier_le_iff _ n).mp le_rfl
      have hlb : n ≤ tierCeilNum (voltageOfTier n).toNat := by
        by_contra hc
        push_neg at hc
        have hn1 : 1 ≤ n := by omega
        have hle : voltageOfTier n ≤ voltageOfTier (n - 1) :=
          (voltageTier_le_iff _ (n - 1)).mpr (by omega)
        exact absurd hle (not_le.mpr (voltageOfTier_lt_of_lt (by omega)))
      omega
    have hmono : voltageOfTier n ≤ voltageOfTier 15 := by
      rcases Nat.lt_or_ge n 15 with h | h
      · exact le_of_lt (voltageOfTier_lt_of_lt h)
      · have : n = 15 := by omega
        rw [this]
    unfold voltageTierOfValue
    rw [if_pos ⟨by omega, by omega⟩,
      if_pos (show tierCeilNum (voltageOfTier n).toNat ≤ 15 by omega), ht]

/-- C8 counterexample: `v = 8589934593 = 2^33 + 1` lies in the range
`1 ≤ v < 4 * voltageOfTier 15` the claim asserts always succeeds, yet
the lookup raises `ValueError`: the computed tier number is 16 and
`_from_number(16)` asks for voltage `2^35`, which is outside the table
(the repository test `test_voltage_tier_get_voltage_tier_errors` pins
exactly this input). -/
theorem C8_voltage_tier_range_counterexample :
    (1 : ℤ) ≤ 8589934593 ∧ (8589934593 : ℤ) < 4 * voltageOfTier 15
      ∧ voltageTierOfValue 8589934593 = none := by
  refine ⟨by norm_num, by norm_num [voltageOfTier], ?_⟩
  have hclog : natClog 2 8589934593 = 34 := by decide
  unfold voltageTierOfValue
  rw [if_pos ⟨by norm_num, by norm_num [voltageOfTier]⟩, if_neg]
  simp only [tierCeilNum]
  rw [show (8589934593 : ℤ).toNat = 8589934593 from rfl, hclog]
  decide

/-- Witness for C8: concrete instantiations of all three parts — tier of
voltage 2048 (an exact boundary, tier EV = 4), failure at 0, and success
with the minimality property at the interior point 3000 (tier IV = 5,
matching the repository test `test_voltage_tier_get_voltage_tier`). -/
theorem C8_voltage_tier_lookup_witness :
    voltageTierOfValue 2048 = some 4 ∧ voltageTierOfValue 0 = none
      ∧ voltageTierOfValue 3000 = some 5 := by
  obtain ⟨h1, h2, h3⟩ := C8_voltage_tier_lookup
  refine ⟨?_, h2 0 (Or.inl (by norm_num)), ?_⟩
  · have := h3 4 (by norm_num)
    rw [show voltageOfTier 4 = 2048 from by norm_num [voltageOfTier]] at this
    exact this
  · have := (h1 3000 (by norm_num) (by norm_num [voltageOfTier])).1
    rw [this]
    have h35 : tierCeilNum (3000 : ℤ).toNat = 5 := by
      simp only [tierCeilNum]
      rw [show (3000 : ℤ).toNat = 3000 from rfl,
        show natClog 2 3000 = 12 from by decide]
    rw [h35]

end GTNH
